import Mathlib

/-!
# viscript: task registry, channel bus, message dispatch and rune insertion

A shallow embedding of the coordination layer of viscript
(`hypervisor/task_ext_list.go`, `hypervisor/dbus/dbus.go`, `msg/messages.go`,
`viewport/terminal/msg_in.go`) together with the properties proved about it.

Conventions of the embedding:

* package-level variables and receivers become explicit state that is passed in
  and returned;
* a Go call that can end in a run-time panic or in `log.Fatal` returns
  `Except Crash _`; `Except.ok` is normal completion;
* printing (`fmt.Print*`, `println`, `app.At`) changes no program state and is
  left out;
* a floating-point value is an IEEE value (`F32`): a finite rational, NaN or an
  infinity; every `float32` operation rounds its IEEE result on its own to the
  nearest `float32`, ties to even, overflow going to an infinity (`F32.round`).
-/

namespace Viscript

/-! ## Go run-time model -/

/-- The two abnormal ends of a Go call: a run-time panic, or process termination
through `log.Fatal`. -/
inductive Crash
  | panic
  | fatal
deriving DecidableEq, Repr

/-- A Go map that has been made (`make(map[K]V)`): finitely many entries, at most
one entry for a key. The order of `entries` cannot be observed by the program. -/
structure GoMap (κ ν : Type) where
  entries : List (κ × ν)
  nodup : (entries.map Prod.fst).Nodup

namespace GoMap

variable {κ ν : Type} [DecidableEq κ]

/-- The map `make(map[K]V)` returns. -/
def empty : GoMap κ ν := ⟨[], List.nodup_nil⟩

/-- The entry stored under `k`, if there is one. -/
def find? (m : GoMap κ ν) (k : κ) : Option ν :=
  (m.entries.find? (fun e => decide (e.1 = k))).map Prod.snd

/-- The entries of `m` whose key is not `k`. -/
def erase (m : GoMap κ ν) (k : κ) : GoMap κ ν :=
  ⟨m.entries.filter (fun e => decide (e.1 ≠ k)),
    (List.filter_sublist m.entries).map Prod.fst |>.nodup m.nodup⟩

/-- The map with `v` stored under `k`, any earlier entry for `k` replaced. -/
def insert (m : GoMap κ ν) (k : κ) (v : ν) : GoMap κ ν :=
  ⟨(k, v) :: (m.erase k).entries, by
    have h := (m.erase k).nodup
    simp only [List.map_cons, List.nodup_cons]
    refine ⟨?_, h⟩
    simp [erase, List.mem_map, List.mem_filter]⟩

end GoMap

section MapOps

variable {κ ν : Type} [DecidableEq κ]

/-- Go's `v, ok := m[k]` on a map value that may be nil (`none`): a nil map reads
as a map without entries; `some v` stands for `ok = true`. -/
def mapIndex (m : Option (GoMap κ ν)) (k : κ) : Option ν :=
  match m with
  | none => none
  | some g => g.find? k

/-- Go's `m[k] = v`: a run-time panic on a nil map. -/
def mapAssign (m : Option (GoMap κ ν)) (k : κ) (v : ν) :
    Except Crash (Option (GoMap κ ν)) :=
  match m with
  | none => .error .panic
  | some g => .ok (some (g.insert k v))

/-- Go's `delete(m, k)`: no effect on a nil map or when `k` has no entry. -/
def mapDelete (m : Option (GoMap κ ν)) (k : κ) : Option (GoMap κ ν) :=
  m.map (fun g => g.erase k)

/-- Number of entries of the map stored under key `k`. -/
def mapCount (m : Option (GoMap κ ν)) (k : κ) : Nat :=
  match m with
  | none => 0
  | some g => g.entries.countP (fun e => decide (e.1 = k))

end MapOps

/-- Go's conversion `int(x)` of an integer value on a 64-bit platform: the value
wrapped into the signed 64-bit range; the identity on every value in that range. -/
def goInt (v : Int) : Int := (v + 2 ^ 63) % 2 ^ 64 - 2 ^ 63

/-- Go's `strconv.Itoa`: decimal digits, with a leading minus sign for a negative
number. -/
def Itoa (i : Int) : String := toString i

/-! ## float32 arithmetic -/

/-- An IEEE floating-point value, `float32` or `float64`: a finite value, held as
the rational it stands for, or NaN or an infinity; the finite zero is the positive
zero. The operations `neg`, `mul`, `div`, `add`, `sub` give the IEEE result before
rounding, exact on finite values. -/
inductive F32
  | nan
  | negInf
  | fin (q : ℚ)
  | posInf
deriving DecidableEq

namespace F32

/-- IEEE negation. -/
def neg : F32 → F32
  | nan => nan
  | negInf => posInf
  | fin q => fin (-q)
  | posInf => negInf

/-- An infinity of the sign of `q`, and NaN for `q = 0`: the product of an
infinity with the finite value `q`. -/
def infTimes (positive : Bool) (q : ℚ) : F32 :=
  if q = 0 then nan
  else if (0 < q) = positive then posInf
  else negInf

/-- IEEE multiplication. -/
def mul : F32 → F32 → F32
  | nan, _ => nan
  | _, nan => nan
  | fin a, fin b => fin (a * b)
  | fin a, posInf => infTimes true a
  | fin a, negInf => infTimes false a
  | posInf, fin b => infTimes true b
  | negInf, fin b => infTimes false b
  | posInf, posInf => posInf
  | negInf, negInf => posInf
  | posInf, negInf => negInf
  | negInf, posInf => negInf

/-- IEEE division: a finite nonzero value over zero is an infinity, zero over
zero and an infinity over an infinity are NaN. -/
def div : F32 → F32 → F32
  | nan, _ => nan
  | _, nan => nan
  | fin a, fin b =>
    if b = 0 then (if a = 0 then nan else if 0 < a then posInf else negInf)
    else fin (a / b)
  | fin _, posInf => fin 0
  | fin _, negInf => fin 0
  | posInf, fin b => if 0 ≤ b then posInf else negInf
  | negInf, fin b => if 0 ≤ b then negInf else posInf
  | posInf, posInf => nan
  | posInf, negInf => nan
  | negInf, posInf => nan
  | negInf, negInf => nan

/-- IEEE addition. -/
def add : F32 → F32 → F32
  | nan, _ => nan
  | _, nan => nan
  | fin a, fin b => fin (a + b)
  | fin _, posInf => posInf
  | fin _, negInf => negInf
  | posInf, fin _ => posInf
  | negInf, fin _ => negInf
  | posInf, posInf => posInf
  | negInf, negInf => negInf
  | posInf, negInf => nan
  | negInf, posInf => nan

/-- IEEE subtraction. -/
def sub (a b : F32) : F32 := add a (neg b)

/-- Go's `a < b`: false as soon as one side is NaN. -/
def lt : F32 → F32 → Bool
  | nan, _ => false
  | _, nan => false
  | negInf, negInf => false
  | negInf, _ => true
  | fin a, fin b => decide (a < b)
  | fin _, posInf => true
  | fin _, negInf => false
  | posInf, _ => false

/-- Go's `a <= b`: false as soon as one side is NaN. -/
def le : F32 → F32 → Bool
  | nan, _ => false
  | _, nan => false
  | negInf, _ => true
  | fin a, fin b => decide (a ≤ b)
  | fin _, posInf => true
  | fin _, negInf => false
  | posInf, posInf => true
  | posInf, _ => false

end F32

/-- Rounding of a rational to the nearest integer, a tie going to the even one. -/
def roundNE (x : ℚ) : ℤ :=
  let f := ⌊x⌋
  if x - f < 1 / 2 then f
  else if 1 / 2 < x - f then f + 1
  else if f % 2 = 0 then f else f + 1

/-- The exponent of the `float32` grid around a positive rational `q`: its binade
(`2^e ≤ q < 2^(e+1)`), and -126 for every `q` below `2^(-126)`, where the
subnormal numbers share the spacing of the lowest binade. -/
def f32Exp (q : ℚ) : ℤ := max (Int.log 2 q) (-126)

/-- The multiple of the grid spacing `2^(e-23)`, `e = f32Exp q`, nearest to the
positive rational `q`, a tie going to the even multiple (a significand of 24
bits). -/
def roundF32Pos (q : ℚ) : ℚ :=
  (roundNE (q / (2 : ℚ) ^ (f32Exp q - 23)) : ℚ) * (2 : ℚ) ^ (f32Exp q - 23)

/-- IEEE rounding of a rational to the `float32` grid (round to nearest, ties to
even), symmetric in the sign, before the check for overflow. -/
def roundF32 (q : ℚ) : ℚ :=
  if q = 0 then 0 else if 0 < q then roundF32Pos q else -roundF32Pos (-q)

namespace F32

/-- The `float32` nearest to the rational `q`: the rounded value, or an infinity
when it is beyond the largest finite `float32`, `(2^24 - 1) * 2^104`. -/
def ofRat (q : ℚ) : F32 :=
  if (2 : ℚ) ^ 128 ≤ roundF32 q then posInf
  else if roundF32 q ≤ -(2 : ℚ) ^ 128 then negInf
  else fin (roundF32 q)

/-- Rounding of an IEEE result to `float32`; also Go's conversion `float32(x)` of
a `float64`. NaN and the infinities stay. -/
def round : F32 → F32
  | fin q => ofRat q
  | x => x

end F32

/-- Go's `a + b` on `float32`: the IEEE sum rounded to `float32`. -/
def fadd (a b : F32) : F32 := F32.round (F32.add a b)

/-- Go's `a - b` on `float32`: the IEEE difference rounded to `float32`. -/
def fsub (a b : F32) : F32 := F32.round (F32.sub a b)

/-- Go's `a * b` on `float32`: the IEEE product rounded to `float32`. -/
def fmul (a b : F32) : F32 := F32.round (F32.mul a b)

/-- Go's `a / b` on `float32`: the IEEE quotient rounded to `float32`. -/
def fdiv (a b : F32) : F32 := F32.round (F32.div a b)

/-! ## hypervisor/task_ext_list.go -/

/-- Modelled from the spec: `msg.ExtTaskId` is declared outside the sources at
hand; the spec calls a task id an opaque integer. An id is its integer value. -/
abbrev ExtTaskId := Int

/-- Modelled from the spec: `msg.ExtTaskInterface` is declared outside the sources
at hand; a task handle is any value that reports its id through `GetId`. Handles
are non-nil. -/
class ExtTaskInterface (τ : Type) where
  GetId : τ → ExtTaskId

export ExtTaskInterface (GetId)

/-- The registry `ExtTaskList`; `TaskMap = none` is the nil map of the zero value
and of `teardownExtTaskList`. -/
structure ExtTaskList (τ : Type) where
  TaskMap : Option (GoMap ExtTaskId τ)

section Registry

variable {τ : Type}

/-- The function `initExtTaskList`. -/
def initExtTaskList (_ : ExtTaskList τ) : ExtTaskList τ :=
  { TaskMap := some GoMap.empty }

/-- The function `teardownExtTaskList`. -/
def teardownExtTaskList (_ : ExtTaskList τ) : ExtTaskList τ :=
  { TaskMap := none }

/-- The function `ExtProcessIsRunning`. -/
def ExtProcessIsRunning (g : ExtTaskList τ) (procId : ExtTaskId) : Bool :=
  (mapIndex g.TaskMap procId).isSome

/-- The function `AddExtTask`: the returned id and the registry afterwards. -/
def AddExtTask [ExtTaskInterface τ] (g : ExtTaskList τ) (ep : τ) :
    Except Crash (ExtTaskId × ExtTaskList τ) :=
  let id := GetId ep
  if !ExtProcessIsRunning g id then
    match mapAssign g.TaskMap id ep with
    | .error c => .error c
    | .ok m => .ok (id, { TaskMap := m })
  else
    .ok (id, g)

/-- The function `GetExtProcess`: the pair (task, error), `none` being nil. An
error is represented by its message. -/
def GetExtProcess (g : ExtTaskList τ) (id : ExtTaskId) :
    Except Crash (Option τ × Option String) :=
  match mapIndex g.TaskMap id with
  | some extProc => .ok (some extProc, none)
  | none =>
    let err := "External process with id " ++ Itoa (goInt id) ++ " doesn't exist!"
    .ok (none, some err)

/-- The function `RemoveExtProcess`. -/
def RemoveExtProcess (g : ExtTaskList τ) (id : ExtTaskId) :
    Except Crash (ExtTaskList τ) :=
  .ok { TaskMap := mapDelete g.TaskMap id }

/-- The function `TickExtTasks`: its body is empty. -/
def TickExtTasks (g : ExtTaskList τ) : Except Crash (ExtTaskList τ) :=
  .ok g

end Registry

/-! ## hypervisor/dbus/dbus.go -/

/-- Modelled from the spec: `ChannelId` is declared outside the sources at hand; an
opaque integer. -/
abbrev ChannelId := Int

/-- Modelled from the spec: `ResourceId` is declared outside the sources at hand;
an opaque integer. -/
abbrev ResourceId := Int

/-- Modelled from the spec: `ResourceType` is declared outside the sources at
hand; the type tag of a resource, an integer. -/
abbrev ResourceType := Int

/-- The struct `ResourceMeta`; `Typ` is its field `Type`. -/
structure ResourceMeta where
  Id : ResourceId
  Typ : ResourceType
deriving DecidableEq, Repr

/-- The struct `DbusInstance`; `χ` is the type `PubsubChannel`, declared outside
the sources at hand. `Resources` is the slice as the list of its elements. -/
structure DbusInstance (χ : Type) where
  PubsubChannels : Option (GoMap ChannelId χ)
  Resources : List ResourceMeta

section Dbus

variable {χ : Type}

/-- The method `DbusInstance.Init`. -/
def DbusInstance.Init (_ : DbusInstance χ) : Except Crash (DbusInstance χ) :=
  .ok { PubsubChannels := some GoMap.empty, Resources := [] }

/-- The method `DbusInstance.ResourceRegister`. -/
def DbusInstance.ResourceRegister (self : DbusInstance χ) (resourceId : ResourceId)
    (resourceType : ResourceType) : Except Crash (DbusInstance χ) :=
  let x : ResourceMeta := { Id := 0, Typ := 0 }
  let x := { x with Id := resourceId }
  let x := { x with Typ := resourceType }
  .ok { self with Resources := self.Resources ++ [x] }

/-- The method `DbusInstance.ResourceUnregister`: its body is empty. -/
def DbusInstance.ResourceUnregister (self : DbusInstance χ) (_resourceID : ResourceId)
    (_resourceType : ResourceType) : Except Crash (DbusInstance χ) :=
  .ok self

end Dbus

/-- The removal the spec asks of `UnregisterResource`, in the spec's words: drop the
first entry whose id and type both match, keep the rest in order, change nothing
when no entry matches. -/
def specUnregister (rs : List ResourceMeta) (id : ResourceId) (ty : ResourceType) :
    List ResourceMeta :=
  match rs with
  | [] => []
  | r :: rest =>
    if r.Id = id ∧ r.Typ = ty then rest else r :: specUnregister rest id ty

/-! ## Byte slices and strings -/

/-- One byte. -/
abbrev Byte := Fin 256

/-- A Go `[]byte` value seen from its first element: `elems` are the `len` bytes
of the slice, `spare` the bytes of its backing array between length and
capacity. -/
structure ByteSlice where
  elems : List Byte
  spare : List Byte
deriving DecidableEq, Repr

namespace ByteSlice

/-- Go's `len(s)`. -/
def len (s : ByteSlice) : Nat := s.elems.length

/-- Go's `cap(s)`. -/
def cap (s : ByteSlice) : Nat := s.elems.length + s.spare.length

/-- A slice whose capacity equals its length. -/
def ofList (bs : List Byte) : ByteSlice := ⟨bs, []⟩

/-- Go's `s[lo:hi]` on a slice: a run-time panic unless `0 ≤ lo ≤ hi ≤ cap(s)`;
the bounds are checked against the capacity, not the length. -/
def slice (s : ByteSlice) (lo hi : Int) : Except Crash ByteSlice :=
  if 0 ≤ lo ∧ lo ≤ hi ∧ hi ≤ (s.cap : Int) then
    .ok ⟨((s.elems ++ s.spare).drop lo.toNat).take (hi.toNat - lo.toNat),
         (s.elems ++ s.spare).drop hi.toNat⟩
  else .error .panic

/-- Go's `s[lo:]` on a slice: a run-time panic unless `0 ≤ lo ≤ len(s)`. -/
def sliceFrom (s : ByteSlice) (lo : Int) : Except Crash ByteSlice :=
  if 0 ≤ lo ∧ lo ≤ (s.len : Int) then .ok ⟨s.elems.drop lo.toNat, s.spare⟩
  else .error .panic

end ByteSlice

/-- A Go `string`: its bytes. -/
abbrev GoString := List Byte

/-- Go's `s[lo:hi]` on a string: a run-time panic unless `0 ≤ lo ≤ hi ≤ len(s)`. -/
def strSlice (s : GoString) (lo hi : Int) : Except Crash GoString :=
  if 0 ≤ lo ∧ lo ≤ hi ∧ hi ≤ (s.length : Int) then
    .ok ((s.drop lo.toNat).take (hi.toNat - lo.toNat))
  else .error .panic

/-- Go's `xs[i]` on a slice: a run-time panic unless `0 ≤ i < len(xs)`. -/
def goIndex {α : Type} (xs : List α) (i : Int) : Except Crash α :=
  if 0 ≤ i then
    match xs.get? i.toNat with
    | some x => .ok x
    | none => .error .panic
  else .error .panic

/-- The byte with value `n % 256`. -/
def byteOf (n : Nat) : Byte := ⟨n % 256, Nat.mod_lt n (by decide)⟩

/-- Go's `string(r)` for a rune `r`: the UTF-8 encoding of the code point, and the
encoding of U+FFFD for a value that is no valid code point. -/
def runeString (r : Int) : GoString :=
  let c : Nat :=
    if r < 0 ∨ 0x10FFFF < r ∨ (0xD800 ≤ r ∧ r ≤ 0xDFFF) then 0xFFFD else r.toNat
  if c < 0x80 then [byteOf c]
  else if c < 0x800 then [byteOf (0xC0 + c / 64), byteOf (0x80 + c % 64)]
  else if c < 0x10000 then
    [byteOf (0xE0 + c / 4096), byteOf (0x80 + c / 64 % 64), byteOf (0x80 + c % 64)]
  else
    [byteOf (0xF0 + c / 262144), byteOf (0x80 + c / 4096 % 64),
     byteOf (0x80 + c / 64 % 64), byteOf (0x80 + c % 64)]

/-- The unsigned little-endian value of a byte sequence. -/
def leValue : List Byte → Nat
  | [] => 0
  | b :: bs => b.val + 256 * leValue bs

/-- Go's `binary.Read(r, binary.LittleEndian, &v)` for an unsigned `v` of `n` bytes
on a reader holding `bs`: `none` is a non-nil error (fewer than `n` bytes left). -/
def readUintLE (n : Nat) (bs : List Byte) : Option Nat :=
  if bs.length < n then none else some (leValue (bs.take n))

/-- Go's `binary.Read(r, binary.LittleEndian, &v)` for `v` of type `rune`
(`int32`): the four bytes read as a two's-complement number. -/
def readRuneLE (bs : List Byte) : Option Int :=
  match readUintLE 4 bs with
  | none => none
  | some u => some (if u < 2 ^ 31 then (u : Int) else (u : Int) - 2 ^ 32)

/-! ## Package msg: declarations used by the dispatchers -/

/-- The struct `MessageMousePos`. Floating-point fields are rationals. -/
structure MessageMousePos where
  X : ℚ
  Y : ℚ
deriving DecidableEq

/-- The struct `MessageMouseScroll`; the `float64` offsets are IEEE values. -/
structure MessageMouseScroll where
  X : F32
  Y : F32
  HoldingControl : Bool
deriving DecidableEq

/-- The struct `MessageMouseButton`. -/
structure MessageMouseButton where
  Button : Nat
  Action : Nat
  Mod : Nat
deriving DecidableEq

/-- The struct `MessageKey`. -/
structure MessageKey where
  Key : Nat
  Scan : Nat
  Action : Nat
  Mod : Nat
deriving DecidableEq

/-- The struct `MessagePutChar`. -/
structure MessagePutChar where
  Char : Nat
deriving DecidableEq

/-- The struct `MessageSetCharAt`. -/
structure MessageSetCharAt where
  X : Int
  Y : Int
  Char : Nat
deriving DecidableEq

/-- Modelled from the spec: `msg.Deserialize` for one target type `P` is declared
outside the sources at hand. `decode` is `Deserialize(bytes, &target)`, `none`
being the `MalformedPayload` error; it "fails with a MalformedPayload error when
the buffer is shorter than the target's fixed shape" of `shape` bytes. -/
structure Codec (P : Type) where
  shape : Nat
  decode : ByteSlice → Option P
  decode_short : ∀ b : ByteSlice, b.len < shape → decode b = none

/-- Modelled from the spec: `msg.MustDeserialize` is declared outside the sources
at hand; "a MustDeserialize variant is fatal (process-terminating) on the same
condition" on which `Deserialize` fails. -/
def MustDeserialize {P : Type} (c : Codec P) (message : ByteSlice) : Except Crash P :=
  match c.decode message with
  | some p => .ok p
  | none => .error .fatal

/-- The constants, payload types and decoders of package msg that the dispatchers
use and that are declared outside the sources at hand. -/
structure MsgDecls where
  TypeMousePos : Nat
  TypeMouseScroll : Nat
  TypeMouseButton : Nat
  TypeCharacter : Nat
  TypeKey : Nat
  TypeClear : Nat
  TypeCommandPrompt : Nat
  TypeMoveTerminal : Nat
  TypePutChar : Nat
  TypeSetCharAt : Nat
  TypeTokenizedCommand : Nat
  KeyEnter : Nat
  MessageCommandPrompt : Type
  MessageMoveTerminal : Type
  MessageTokenizedCommand : Type
  codecMousePos : Codec MessageMousePos
  codecMouseScroll : Codec MessageMouseScroll
  codecMouseButton : Codec MessageMouseButton
  codecKey : Codec MessageKey
  codecCommandPrompt : Codec MessageCommandPrompt
  codecMoveTerminal : Codec MessageMoveTerminal
  codecPutChar : Codec MessagePutChar
  codecSetCharAt : Codec MessageSetCharAt
  codecTokenizedCommand : Codec MessageTokenizedCommand

/-! ## msg/messages.go -/

/-- The function `GetMessageTypeUInt16`. -/
def GetMessageTypeUInt16 (message : ByteSlice) : Except Crash Nat :=
  match message.slice 0 2 with
  | .error c => .error c
  | .ok rBuf =>
    match readUintLE 2 rBuf.elems with
    | none => .ok 0
    | some value => .ok value

/-- Modelled from the spec: the sentinel "unknown" type that `GetMessageType`
returns on a truncated buffer; the spec names no value for it, and 0 is taken, the
value `GetMessageTypeUInt16` returns when its read fails. -/
def TypeUnknown : Nat := 0

/-- Modelled from the spec: `msg.GetType` is declared outside the sources at hand;
"`GetMessageType(bytes) -> uint16` reads the first two bytes as a little-endian
tag; this must never panic even on a truncated buffer (return a sentinel
"unknown" type instead and let the dispatcher log it)". -/
def GetType (message : ByteSlice) : Except Crash Nat :=
  if message.len < 2 then .ok TypeUnknown else GetMessageTypeUInt16 message

/-- The focused text panel `gfx.Rend.Focused` (reached through a pointer), with
the fields `InsertRuneIntoDocumentTest` uses. -/
structure TextPanel where
  TextBodies : List (List GoString)
  CursX : Int
  CursY : Int
deriving DecidableEq

/-- The state `processMessage` works on: the package variable `curRecByte`, the
focused panel, and in `others` what else the packages gfx and script hold. -/
structure MsgState (γ : Type) where
  curRecByte : Int
  Focused : TextPanel
  others : γ

/-- The functions of the packages gfx and script that `processMessage` calls,
declared outside the sources at hand. -/
structure MsgCollab (γ : Type) where
  ConvertMouseClickToTextCursorPosition :
    Nat → Nat → MsgState γ → Except Crash (MsgState γ)
  Process : Bool → MsgState γ → Except Crash (MsgState γ)

section Messages

variable {γ : Type}

/-- The function `InsertRuneIntoDocumentTest`. -/
def InsertRuneIntoDocumentTest (st : MsgState γ) (message : ByteSlice) :
    Except Crash (MsgState γ) :=
  let size : Int := 4
  match message.slice st.curRecByte (st.curRecByte + size) with
  | .error c => .error c
  | .ok rBuf =>
    let err := readRuneLE rBuf.elems
    let st := { st with curRecByte := st.curRecByte + size }
    match err with
    | none => .ok st
    | some value =>
      let f := st.Focused
      match goIndex f.TextBodies 0 with
      | .error c => .error c
      | .ok b =>
        match goIndex b f.CursY with
        | .error c => .error c
        | .ok line =>
          let resultsDif := f.CursX - (line.length : Int)
          if f.CursX > (line.length : Int) then
            match strSlice line 0 (f.CursX - resultsDif), strSlice line 0 line.length with
            | .ok p, .ok q =>
              let b := b.set f.CursY.toNat (p ++ q ++ runeString value)
              .ok { st with Focused :=
                { f with TextBodies := f.TextBodies.set 0 b, CursX := f.CursX + 1 } }
            | _, _ => .error .panic
          else
            match strSlice line 0 f.CursX, strSlice line f.CursX line.length with
            | .ok p, .ok q =>
              let b := b.set f.CursY.toNat (p ++ runeString value ++ q)
              .ok { st with Focused :=
                { f with TextBodies := f.TextBodies.set 0 b, CursX := f.CursX + 1 } }
            | _, _ => .error .panic

/-- The function `processMessage`. -/
def processMessage (d : MsgDecls) (k : MsgCollab γ) (st : MsgState γ)
    (message : ByteSlice) : Except Crash (MsgState γ) :=
  match GetMessageTypeUInt16 message with
  | .error c => .error c
  | .ok ty =>
    let body : Except Crash (MsgState γ) :=
      if ty = d.TypeMousePos then
        (MustDeserialize d.codecMousePos message).map (fun _ => st)
      else if ty = d.TypeMouseScroll then
        (MustDeserialize d.codecMouseScroll message).map (fun _ => st)
      else if ty = d.TypeMouseButton then
        match MustDeserialize d.codecMouseButton message with
        | .error c => .error c
        | .ok msgBtn =>
          k.ConvertMouseClickToTextCursorPosition msgBtn.Button msgBtn.Action st
      else if ty = d.TypeCharacter then
        match InsertRuneIntoDocumentTest st message with
        | .error c => .error c
        | .ok st1 => k.Process false st1
      else if ty = d.TypeKey then
        (MustDeserialize d.codecKey message).map (fun _ => st)
      else
        .ok st
    match body with
    | .error c => .error c
    | .ok st1 => .ok { st1 with curRecByte := 0 }

end Messages

/-! ## viewport/terminal/msg_in.go -/

/-- A pair of `float32` coordinates (`CurrFlowPos`, `CharSize`). -/
structure Vec2F where
  X : F32
  Y : F32
deriving DecidableEq

/-- The rectangle `Bounds` with the four `float32` edges the source assigns and
reads. -/
structure Rectangle where
  Top : F32
  Right : F32
  Bottom : F32
  Left : F32
deriving DecidableEq

/-- Modelled from the spec: `Rectangle.Width` is declared outside the sources at
hand; the width of the bounding rectangle, from its left to its right edge,
computed in `float32`. -/
def Rectangle.Width (r : Rectangle) : F32 := fsub r.Right r.Left

/-- Modelled from the spec: `Rectangle.Height` is declared outside the sources at
hand; the height of the bounding rectangle, from its bottom to its top edge,
computed in `float32`. -/
def Rectangle.Height (r : Rectangle) : F32 := fsub r.Top r.Bottom

/-- Modelled from the spec: `app.Clamp` is declared outside the sources at hand;
"clamping the scroll delta to [-1,1]", by the two comparisons with the bounds. -/
def Clamp (v lo hi : F32) : F32 :=
  if F32.lt v lo then lo else if F32.lt hi v then hi else v

/-- The struct `Terminal` with the fields the source names; `others` holds the
fields declared outside the sources at hand (text buffer, prompt, ...). -/
structure Terminal (ρ : Type) where
  TerminalId : Int
  CurrFlowPos : Vec2F
  Bounds : Rectangle
  CharSize : Vec2F
  others : ρ

/-- The methods `UnpackMessage` calls that are declared outside the sources at
hand: six methods of `Terminal` and `Terms.onUserCommandFinalStage`, which works on
the terminal stack `γ` and may reach the terminal through it. -/
structure TermCollab (d : MsgDecls) (ρ γ : Type) where
  clear : Terminal ρ → Except Crash (Terminal ρ)
  updateCommandPrompt : d.MessageCommandPrompt → Terminal ρ → Except Crash (Terminal ρ)
  move : d.MessageMoveTerminal → Terminal ρ → Except Crash (Terminal ρ)
  putCharacter : Nat → Terminal ρ → Except Crash (Terminal ρ)
  SetCharacterAt : Int → Int → Nat → Terminal ρ → Except Crash (Terminal ρ)
  NewLine : Terminal ρ → Except Crash (Terminal ρ)
  onUserCommandFinalStage :
    Int → d.MessageTokenizedCommand → Terminal ρ × γ → Except Crash (Terminal ρ × γ)

section TerminalDispatch

variable {d : MsgDecls} {ρ γ : Type}

/-- The method `Terminal.onKey`. -/
def Terminal.onKey (k : TermCollab d ρ γ) (t : Terminal ρ) (m : MessageKey) :
    Except Crash (Terminal ρ) :=
  if m.Key = d.KeyEnter then k.NewLine t else .ok t

/-- The method `Terminal.onMouseScroll`, in `float32` arithmetic: `float32(m.Y)`
rounds the `float64` delta, every operation rounds its IEEE result on its own (no
fused multiply-add), and the constant 0.2 of the guard is the `float32` nearest
to 0.2. -/
def Terminal.onMouseScroll (t : Terminal ρ) (m : MessageMouseScroll) :
    Except Crash (Terminal ρ) :=
  if m.HoldingControl then
    let y := F32.round m.Y
    let changeFactor := fadd (.fin 1) (fdiv (Clamp y (.fin (-1)) (.fin 1)) (.fin 10))
    let newWidth := fmul t.Bounds.Width changeFactor
    let newHeight := fmul t.Bounds.Height changeFactor
    if F32.lt newWidth (F32.ofRat 0.2) || F32.lt newHeight (F32.ofRat 0.2) then
      .ok t
    else
      .ok { t with
        Bounds := { t.Bounds with
          Right := fadd t.Bounds.Left newWidth
          Bottom := fsub t.Bounds.Top newHeight }
        CharSize := { X := fmul t.CharSize.X changeFactor,
                      Y := fmul t.CharSize.Y changeFactor } }
  else
    .ok t

/-- The method `Terminal.UnpackMessage`: the returned slice, the terminal and the
terminal stack afterwards. -/
def Terminal.UnpackMessage (k : TermCollab d ρ γ) (w : Terminal ρ × γ)
    (message : ByteSlice) : Except Crash (ByteSlice × Terminal ρ × γ) :=
  let t := w.1
  let g := w.2
  match message.sliceFrom 4 with
  | .error c => .error c
  | .ok message =>
    match GetType message with
    | .error c => .error c
    | .ok ty =>
      let body : Except Crash (Terminal ρ × γ) :=
        if ty = d.TypeClear then
          match k.clear t with
          | .error c => .error c
          | .ok t1 => .ok ({ t1 with CurrFlowPos := { t1.CurrFlowPos with Y := .fin 0 } }, g)
        else if ty = d.TypeCommandPrompt then
          match MustDeserialize d.codecCommandPrompt message with
          | .error c => .error c
          | .ok m => (k.updateCommandPrompt m t).map (fun t1 => (t1, g))
        else if ty = d.TypeMoveTerminal then
          match MustDeserialize d.codecMoveTerminal message with
          | .error c => .error c
          | .ok m => (k.move m t).map (fun t1 => (t1, g))
        else if ty = d.TypePutChar then
          match MustDeserialize d.codecPutChar message with
          | .error c => .error c
          | .ok m => (k.putCharacter m.Char t).map (fun t1 => (t1, g))
        else if ty = d.TypeSetCharAt then
          match MustDeserialize d.codecSetCharAt message with
          | .error c => .error c
          | .ok m => (k.SetCharacterAt m.X m.Y m.Char t).map (fun t1 => (t1, g))
        else if ty = d.TypeTokenizedCommand then
          match MustDeserialize d.codecTokenizedCommand message with
          | .error c => .error c
          | .ok m => k.onUserCommandFinalStage t.TerminalId m (t, g)
        else if ty = d.TypeKey then
          match MustDeserialize d.codecKey message with
          | .error c => .error c
          | .ok m => (Terminal.onKey k t m).map (fun t1 => (t1, g))
        else if ty = d.TypeMouseScroll then
          match MustDeserialize d.codecMouseScroll message with
          | .error c => .error c
          | .ok m => (Terminal.onMouseScroll t m).map (fun t1 => (t1, g))
        else
          .ok (t, g)
      match body with
      | .error c => .error c
      | .ok w1 => .ok (message, w1)

end TerminalDispatch

/-- The tags `Terminal.UnpackMessage` has a case for, in the order of its cases. -/
def MsgDecls.terminalTags (d : MsgDecls) : List Nat :=
  [d.TypeClear, d.TypeCommandPrompt, d.TypeMoveTerminal, d.TypePutChar, d.TypeSetCharAt,
   d.TypeTokenizedCommand, d.TypeKey, d.TypeMouseScroll]

/-- The tags `processMessage` has a case for, in the order of its cases. -/
def MsgDecls.messageTags (d : MsgDecls) : List Nat :=
  [d.TypeMousePos, d.TypeMouseScroll, d.TypeMouseButton, d.TypeCharacter, d.TypeKey]

/-- The fixed shape of the payload `Terminal.UnpackMessage` hands to
`MustDeserialize` for tag `ty`, following its cases in order; `none` for `Clear`
(nothing is decoded) and for a tag without a case. -/
def MsgDecls.unpackShape (d : MsgDecls) (ty : Nat) : Option Nat :=
  if ty = d.TypeClear then none
  else if ty = d.TypeCommandPrompt then some d.codecCommandPrompt.shape
  else if ty = d.TypeMoveTerminal then some d.codecMoveTerminal.shape
  else if ty = d.TypePutChar then some d.codecPutChar.shape
  else if ty = d.TypeSetCharAt then some d.codecSetCharAt.shape
  else if ty = d.TypeTokenizedCommand then some d.codecTokenizedCommand.shape
  else if ty = d.TypeKey then some d.codecKey.shape
  else if ty = d.TypeMouseScroll then some d.codecMouseScroll.shape
  else none

/-- The fixed shape of the payload `processMessage` hands to `MustDeserialize` for
tag `ty`, following its cases in order; `none` for `Character` (decoded by
`InsertRuneIntoDocumentTest`) and for a tag without a case. -/
def MsgDecls.processShape (d : MsgDecls) (ty : Nat) : Option Nat :=
  if ty = d.TypeMousePos then some d.codecMousePos.shape
  else if ty = d.TypeMouseScroll then some d.codecMouseScroll.shape
  else if ty = d.TypeMouseButton then some d.codecMouseButton.shape
  else if ty = d.TypeCharacter then none
  else if ty = d.TypeKey then some d.codecKey.shape
  else none

/-! ## Concrete instances for evaluation -/

/-- A decoder of a fixed shape of `n` bytes: it fails on a shorter buffer and
otherwise builds the payload from the first `n` bytes. -/
def fixedCodec {P : Type} (n : Nat) (f : List Byte → P) : Codec P where
  shape := n
  decode := fun b => if b.len < n then none else some (f (b.elems.take n))
  decode_short := by
    intro b h
    simp [h]

/-- Byte `i` of a buffer as a number, 0 past its end. -/
def byteAt (bs : List Byte) (i : Nat) : Nat := ((bs.get? i).map Fin.val).getD 0

/-- An instance of the declarations of package msg: tags numbered in the order of
the spec's catalogue, each message a two-byte tag followed by its fields; pointer
coordinates and opaque payloads are kept as raw bytes or left at zero. -/
def sampleDecls : MsgDecls where
  TypeMousePos := 1
  TypeMouseScroll := 2
  TypeMouseButton := 3
  TypeCharacter := 4
  TypeKey := 5
  TypeClear := 6
  TypeCommandPrompt := 7
  TypeMoveTerminal := 8
  TypePutChar := 9
  TypeSetCharAt := 10
  TypeTokenizedCommand := 11
  KeyEnter := 13
  MessageCommandPrompt := List Byte
  MessageMoveTerminal := List Byte
  MessageTokenizedCommand := List Byte
  codecMousePos := fixedCodec 18 (fun _ => ⟨0, 0⟩)
  codecMouseScroll := fixedCodec 19 (fun bs => ⟨.fin 0, .fin 0, decide (byteAt bs 18 ≠ 0)⟩)
  codecMouseButton := fixedCodec 5 (fun bs => ⟨byteAt bs 2, byteAt bs 3, byteAt bs 4⟩)
  codecKey := fixedCodec 9
    (fun bs => ⟨byteAt bs 2, leValue ((bs.drop 3).take 4), byteAt bs 7, byteAt bs 8⟩)
  codecCommandPrompt := fixedCodec 6 (fun bs => bs.drop 2)
  codecMoveTerminal := fixedCodec 10 (fun bs => bs.drop 2)
  codecPutChar := fixedCodec 6 (fun bs => ⟨leValue ((bs.drop 2).take 4)⟩)
  codecSetCharAt := fixedCodec 14
    (fun bs => ⟨leValue ((bs.drop 2).take 4), leValue ((bs.drop 6).take 4),
                leValue ((bs.drop 10).take 4)⟩)
  codecTokenizedCommand := fixedCodec 6 (fun bs => bs.drop 2)

/-- Collaborators of `processMessage` that change nothing. -/
def sampleMsgCollab : MsgCollab Unit where
  ConvertMouseClickToTextCursorPosition := fun _ _ st => .ok st
  Process := fun _ st => .ok st

/-- Terminal methods over a terminal whose `others` is the list of code points put
so far: `clear` empties it, `putCharacter` appends, `NewLine` appends a line feed. -/
def sampleTermCollab : TermCollab sampleDecls (List Nat) Unit where
  clear := fun t => .ok { t with others := [] }
  updateCommandPrompt := fun _ t => .ok t
  move := fun _ t => .ok t
  putCharacter := fun c t => .ok { t with others := t.others ++ [c] }
  SetCharacterAt := fun _ _ _ t => .ok t
  NewLine := fun t => .ok { t with others := t.others ++ [10] }
  onUserCommandFinalStage := fun _ _ w => .ok w

/-- A terminal with unit bounds that has shown "hi". -/
def sampleTerminal : Terminal (List Nat) where
  TerminalId := 1
  CurrFlowPos := ⟨.fin 0, .fin 3⟩
  Bounds := ⟨.fin 1, .fin 1, .fin 0, .fin 0⟩
  CharSize := ⟨.fin (1 / 8), .fin (1 / 4)⟩
  others := [104, 105]

/-- A document state: one text body with the single line "ab", the cursor in
line 0 at column 5, three columns past the end of the line. -/
def sampleMsgState : MsgState Unit where
  curRecByte := 0
  Focused := { TextBodies := [[[97, 98]]], CursX := 5, CursY := 0 }
  others := ()

/-- A task handle for concrete evaluation: an id and a label telling two handles
with one id apart. -/
structure SampleTask where
  id : ExtTaskId
  label : Nat
deriving DecidableEq, Repr

instance : ExtTaskInterface SampleTask := ⟨SampleTask.id⟩

/-- A second handle with the id of the first, a different object. -/
def sampleTaskA : SampleTask := ⟨7, 0⟩

/-- A handle with id 7 and label 1. -/
def sampleTaskB : SampleTask := ⟨7, 1⟩

/-- An initialised registry holding `sampleTaskA` under id 7. -/
def sampleRegistry : ExtTaskList SampleTask :=
  { TaskMap := some (GoMap.empty.insert 7 sampleTaskA) }

/-- A torn-down registry: the task map is nil. -/
def nilRegistry : ExtTaskList SampleTask := { TaskMap := none }

/-- A bus that was never initialised but holds the descriptor (1, 1). -/
def sampleBus : DbusInstance Unit := { PubsubChannels := none, Resources := [⟨1, 1⟩] }

/-! ## scrollBar.go -/

/-- The struct `ScrollBar`. -/
structure ScrollBar where
  PosX : F32
  PosY : F32
  LenOfBar : F32
  LenOfVoid : F32
deriving DecidableEq

/-- The struct `TextPanel` of package main with the fields `ScrollBar.Scroll`
reads and writes. -/
structure Main.TextPanel where
  Top : F32
  Bottom : F32
  OffsetY : F32
  LenOfOffscreenY : F32
deriving DecidableEq

/-- The method `ScrollBar.Scroll`; `pixelHei` is the package variable
`textRend.pixelHei`, `mousePixelDeltaY` a `float64`. The scroll bar and the panel
afterwards. -/
def ScrollBar.Scroll (pixelHei : F32) (bar : ScrollBar) (tp : Main.TextPanel)
    (mousePixelDeltaY : F32) : Except Crash (ScrollBar × Main.TextPanel) :=
  let yInc := fmul (F32.round mousePixelDeltaY) pixelHei
  let bar := { bar with PosY := fsub bar.PosY yInc }
  let bar :=
    if F32.lt bar.PosY (fadd tp.Bottom bar.LenOfBar) then
      { bar with PosY := fadd tp.Bottom bar.LenOfBar }
    else bar
  let bar := if F32.lt tp.Top bar.PosY then { bar with PosY := tp.Top } else bar
  let tp := { tp with
    OffsetY := fsub tp.OffsetY (fmul (fdiv yInc bar.LenOfVoid) tp.LenOfOffscreenY) }
  let tp := if F32.lt (F32.fin 0) tp.OffsetY then { tp with OffsetY := F32.fin 0 } else tp
  let tp :=
    if F32.lt tp.OffsetY (F32.neg tp.LenOfOffscreenY) then
      { tp with OffsetY := F32.neg tp.LenOfOffscreenY }
    else tp
  .ok (bar, tp)

/-- A scroll bar in its zero value: `StartFrame` has not run, `LenOfVoid` is 0. -/
def zeroScrollBar : ScrollBar :=
  { PosX := .fin 0, PosY := .fin 0, LenOfBar := .fin 0, LenOfVoid := .fin 0 }

/-- A panel between 1 and -1 with 5 units of text off screen, not scrolled. -/
def sampleScrollPanel : Main.TextPanel :=
  { Top := .fin 1, Bottom := .fin (-1), OffsetY := .fin 0, LenOfOffscreenY := .fin 5 }

/-- A scroll bar after `StartFrame` on a panel of height 2 showing a fifth of its
text. -/
def sampleScrollBar : ScrollBar :=
  { PosX := .fin 0, PosY := .fin 1, LenOfBar := .fin (2 / 5), LenOfVoid := .fin (8 / 5) }

/-! ## Tick of the task registry, in the spec's words -/

/-- A task handle with an inbound response channel: `inbox` holds the responses
pending on the channel, oldest first; `exited` tells that the process has ended. -/
structure ChanTask where
  id : ExtTaskId
  inbox : List Nat
  exited : Bool
deriving DecidableEq, Repr

instance : ExtTaskInterface ChanTask := ⟨ChanTask.id⟩

/-- One non-blocking read of a task's inbound response channel, in the spec's
words: "if no data is pending it proceeds to the next task without waiting";
a pending response is taken off the channel. -/
def specTickTask (p : ChanTask) : ChanTask :=
  match p.inbox with
  | [] => p
  | _ :: rest => { p with inbox := rest }

/-- The tick the spec asks for, in the spec's words: "for every registered task,
perform a non-blocking read of that task's inbound response channel"; the ids
stay as they are. -/
def specTick (g : ExtTaskList ChanTask) : ExtTaskList ChanTask :=
  match g.TaskMap with
  | none => g
  | some m =>
    { TaskMap := some
        ⟨m.entries.map (fun e => (e.1, specTickTask e.2)), by
          have h := m.nodup
          simpa [List.map_map, Function.comp] using h⟩ }

/-- A registry holding under id 7 a task with the response 42 pending. -/
def pendingRegistry : ExtTaskList ChanTask :=
  { TaskMap := some (GoMap.empty.insert 7 ⟨7, [42], false⟩) }

/-! ## rpc/cli/commandfuncs.go: the RPC wrappers -/

/-- Modelled from the spec: `msg.TerminalId` is declared outside the sources at
hand; an opaque integer. -/
abbrev TerminalId := Int

/-- Modelled from the spec: `msg.ProcessId` is declared outside the sources at
hand; an opaque integer. -/
abbrev ProcessId := Int

/-- The struct `msg.TermAndAttachedProcessID` with the two fields the source
reads. -/
structure TermAndAttachedProcessID where
  TerminalId : TerminalId
  AttachedProcessId : ProcessId
deriving DecidableEq, Repr

/-- What a wrapper does to its collaborators, in order: a call of
`Client.SendToRPC` with its method name and arguments, or a call of
`msg.Deserialize` on a response. -/
inductive RpcEvent
  | send (method : String) (args : List String)
  | deserialize (response : ByteSlice)
deriving DecidableEq

/-- The client `tm.RPCClient`, declared outside the sources at hand: `SendToRPC`
answers a method name and arguments with a response and an error (`none` is nil),
the error represented by its message. -/
structure RPCClient where
  SendToRPC : String → List String → ByteSlice × Option String

/-- Modelled from the spec: `msg.Deserialize` into the targets the wrappers use is
declared outside the sources at hand; `Except.error` is its non-nil error. `ι` is
the type `msg.ChannelInfo`. -/
structure RpcDecoders (ι : Type) where
  terminalIds : ByteSlice → Except String (List TerminalId)
  termsWithProcesses : ByteSlice → Except String (List TermAndAttachedProcessID)
  processIds : ByteSlice → Except String (List ProcessId)
  terminalId : ByteSlice → Except String TerminalId
  channelInfo : ByteSlice → Except String ι

/-- The struct `CliManager` without its client, which is passed beside it. -/
structure CliManager where
  ChosenTerminalId : TerminalId
  ChosenProcessId : ProcessId
  SessionEnd : Bool
deriving DecidableEq, Repr

/-- What a wrapper returns, with the collaborator calls it made: the result slice,
the error (`none` is nil) and the calls in order. -/
structure RpcOutcome (α : Type) where
  result : α
  err : Option String
  calls : List RpcEvent

section Rpc

variable {ι : Type}

/-- The function `GetTerminalIDs`. -/
def GetTerminalIDs (dec : RpcDecoders ι) (client : RPCClient) :
    Except Crash (RpcOutcome (List TerminalId)) :=
  let (response, err) := client.SendToRPC "ListTerminalIDs" []
  let calls := [RpcEvent.send "ListTerminalIDs" []]
  match err with
  | some e => .ok ⟨[], some e, calls⟩
  | none =>
    match dec.terminalIds response with
    | .error e => .ok ⟨[], some e, calls ++ [.deserialize response]⟩
    | .ok termIDs => .ok ⟨termIDs, none, calls ++ [.deserialize response]⟩

/-- The function `GetTermIDsWithProcessIDs`. -/
def GetTermIDsWithProcessIDs (dec : RpcDecoders ι) (client : RPCClient) :
    Except Crash (RpcOutcome (List TermAndAttachedProcessID)) :=
  let (response, err) := client.SendToRPC "ListTIDsWithProcessIDs" []
  let calls := [RpcEvent.send "ListTIDsWithProcessIDs" []]
  match err with
  | some e => .ok ⟨[], some e, calls⟩
  | none =>
    match dec.termsWithProcesses response with
    | .error e => .ok ⟨[], some e, calls ++ [.deserialize response]⟩
    | .ok termsAndAttachedProcesses =>
      .ok ⟨termsAndAttachedProcesses, none, calls ++ [.deserialize response]⟩

/-- The function `GetProcessIDs`. -/
def GetProcessIDs (dec : RpcDecoders ι) (client : RPCClient) :
    Except Crash (RpcOutcome (List ProcessId)) :=
  let (response, err) := client.SendToRPC "ListProcessIDs" []
  let calls := [RpcEvent.send "ListProcessIDs" []]
  match err with
  | some e => .ok ⟨[], some e, calls⟩
  | none =>
    match dec.processIds response with
    | .error e => .ok ⟨[], some e, calls ++ [.deserialize response]⟩
    | .ok processIDs => .ok ⟨processIDs, none, calls ++ [.deserialize response]⟩

/-- The method `CliManager.ShowChosenTermChannelInfo`; it has no result beside the
error. -/
def CliManager.ShowChosenTermChannelInfo (dec : RpcDecoders ι) (client : RPCClient)
    (c : CliManager) (_args : List String) : Except Crash (RpcOutcome Unit) :=
  if c.ChosenTerminalId = 0 then
    .ok ⟨(), none, []⟩
  else
    let (response, err) := client.SendToRPC "GetTermChannelInfo" [Itoa c.ChosenTerminalId]
    let calls := [RpcEvent.send "GetTermChannelInfo" [Itoa c.ChosenTerminalId]]
    match err with
    | some e => .ok ⟨(), some e, calls⟩
    | none =>
      match dec.channelInfo response with
      | .error e => .ok ⟨(), some e, calls ++ [.deserialize response]⟩
      | .ok _ => .ok ⟨(), none, calls ++ [.deserialize response]⟩

/-- The method `CliManager.StartTerminalWithProcess`; it has no result beside the
error. -/
def CliManager.StartTerminalWithProcess (dec : RpcDecoders ι) (client : RPCClient)
    (_c : CliManager) (_args : List String) : Except Crash (RpcOutcome Unit) :=
  let (response, err) := client.SendToRPC "StartTerminalWithProcess" []
  let calls := [RpcEvent.send "StartTerminalWithProcess" []]
  match err with
  | some e => .ok ⟨(), some e, calls⟩
  | none =>
    match dec.terminalId response with
    | .error e => .ok ⟨(), some e, calls ++ [.deserialize response]⟩
    | .ok _ => .ok ⟨(), none, calls ++ [.deserialize response]⟩

end Rpc

/-- A client whose transport always fails with the error "connection refused". -/
def failingClient : RPCClient :=
  { SendToRPC := fun _ _ => (ByteSlice.ofList [], some "connection refused") }

/-- Decoders that accept every response, giving empty lists and the id 1. -/
def sampleDecoders : RpcDecoders Unit where
  terminalIds := fun _ => .ok []
  termsWithProcesses := fun _ => .ok []
  processIds := fun _ => .ok []
  terminalId := fun _ => .ok 1
  channelInfo := fun _ => .ok ()

/-- A CLI manager with terminal 3 chosen. -/
def sampleCli : CliManager := { ChosenTerminalId := 3, ChosenProcessId := 0, SessionEnd := false }

/-! ## More concrete instances for evaluation -/

/-- A document state with the single line "ab" and the cursor in line 0 at
column 1, inside the line. -/
def inBoundsMsgState : MsgState Unit where
  curRecByte := 0
  Focused := { TextBodies := [[[97, 98]]], CursX := 1, CursY := 0 }
  others := ()

/-- A document state with one empty line and the cursor at column 3, three columns
past the end of the line. -/
def emptyLineMsgState : MsgState Unit where
  curRecByte := 0
  Focused := { TextBodies := [[[]]], CursX := 3, CursY := 0 }
  others := ()

/-- A terminal far from the origin: left edge at 262144, right edge at
262144.21875, so 0.21875 wide, and 1 high; every field is a `float32` value. -/
def offsetTerminal : Terminal (List Nat) where
  TerminalId := 2
  CurrFlowPos := ⟨.fin 0, .fin 0⟩
  Bounds := ⟨.fin 1, .fin (8388615 / 32), .fin 0, .fin 262144⟩
  CharSize := ⟨.fin (1 / 8), .fin (1 / 4)⟩
  others := []

/-- The value of the local `changeFactor` of `Terminal.onMouseScroll` for the
scroll delta `y` of the message. -/
def changeFactorOf (y : F32) : F32 :=
  fadd (.fin 1) (fdiv (Clamp (F32.round y) (.fin (-1)) (.fin 1)) (.fin 10))

/-- Modelled from the spec: `Terminal.clear` is declared outside the sources at
hand; "`Clear` → wipe buffer". With `wiped` telling of the fields in `others`
that the text buffer is wiped, `clear` completes on every terminal and leaves the
buffer wiped. -/
def ClearWipes {d : MsgDecls} {ρ γ : Type} (k : TermCollab d ρ γ) (wiped : ρ → Prop) :
    Prop :=
  ∀ t : Terminal ρ, ∃ t1 : Terminal ρ, k.clear t = .ok t1 ∧ wiped t1.others

/-- The text `sub` occurs in the text `msg`. -/
def containsText (msg sub : String) : Prop := sub.data <:+: msg.data

/-- The line the cursor is in, `TextBodies[0][CursY]`, as `InsertRuneIntoDocumentTest`
reads it. -/
def TextPanel.currentLine (f : TextPanel) : Except Crash GoString :=
  match goIndex f.TextBodies 0 with
  | .error c => .error c
  | .ok b => goIndex b f.CursY

/-! ## rpc/cli/commandfuncs.go: the setters of the default ids -/

/-- Go's `strconv.Atoi`: an optional sign followed by one or more decimal digits;
the value and the error (`none` is nil). A syntax error gives 0, a value outside
the 64-bit range of `int` gives the nearest bound, each with an error; the
error stands for its message, written without the quotes Go puts around the
input. -/
def Atoi (s : String) : Int × Option String :=
  let cs := s.toList
  let signed : Bool × List Char :=
    match cs with
    | '+' :: r => (false, r)
    | '-' :: r => (true, r)
    | r => (false, r)
  let ds := signed.2
  if ds = [] ∨ ¬ ds.all Char.isDigit then
    (0, some ("strconv.Atoi: parsing " ++ s ++ ": invalid syntax"))
  else
    let n : Nat := ds.foldl (fun a ch => 10 * a + (ch.toNat - 48)) 0
    let v : Int := if signed.1 then -(n : Int) else (n : Int)
    if v > 2 ^ 63 - 1 then
      (2 ^ 63 - 1, some ("strconv.Atoi: parsing " ++ s ++ ": value out of range"))
    else if v < -2 ^ 63 then
      (-2 ^ 63, some ("strconv.Atoi: parsing " ++ s ++ ": value out of range"))
    else (v, none)

/-- What a setter leaves: the manager afterwards, the returned error (`none` is
nil) and the messages printed, in order. -/
structure CliOutcome where
  c : CliManager
  err : Option String
  printed : List String
deriving DecidableEq

/-- The method `CliManager.SetDefaultTerminalId`. -/
def CliManager.SetDefaultTerminalId (c : CliManager) (args : List String) :
    Except Crash CliOutcome :=
  if args.length = 0 then
    .ok ⟨c, none, ["\n\nPass the terminal Id as arguement please."]⟩
  else
    match goIndex args 0 with
    | .error e => .error e
    | .ok a0 =>
      let (termId, err) := Atoi a0
      if err.isSome ∨ termId < 1 then
        .ok ⟨c, none, ["\n\nArgument should be a number > 0, not " ++ a0 ++ "\n\n"]⟩
      else
        .ok ⟨{ c with ChosenTerminalId := termId }, none, []⟩

/-- The method `CliManager.SetDefaultProcessId`: the branch for an empty list
formats `args[0]`, and the branch for a bad argument does not return. -/
def CliManager.SetDefaultProcessId (c : CliManager) (args : List String) :
    Except Crash CliOutcome :=
  if args.length = 0 then
    match goIndex args 0 with
    | .error e => .error e
    | .ok a0 => .ok ⟨c, none, ["\n\nArgument should be a number > 0, not " ++ a0 ++ "\n\n"]⟩
  else
    match goIndex args 0 with
    | .error e => .error e
    | .ok a0 =>
      let (processId, err) := Atoi a0
      let printed :=
        if err.isSome ∨ processId < 1 then
          ["\n\nArgument should be a number > 0, not " ++ a0 ++ "\n\n"]
        else []
      .ok ⟨{ c with ChosenProcessId := processId }, none, printed⟩

/-- A CLI manager with terminal 3 and process 5 chosen. -/
def chosenCli : CliManager := { ChosenTerminalId := 3, ChosenProcessId := 5, SessionEnd := false }

/-! ## vendor skycoin visor/blockchain.go: the latest blocks -/

/-- A `coin.Block` with the field `Seq()` reads, `Head.BkSeq`, and a number
standing for the rest of the block. -/
structure Block where
  BkSeq : Nat
  body : Nat
deriving DecidableEq, Repr

/-- The method `coin.Block.Seq`. -/
def Block.Seq (b : Block) : Nat := b.BkSeq

/-- The struct `Blockchain` as the methods below see it: `headSeq` is what
`bc.headSeq()` returns (an `int64`, negative for an empty chain) and
`blockInDepth dep` is `bc.tree.GetBlockInDepth(dep, bc.walker)`, `none` being
nil. -/
structure Blockchain where
  headSeq : Int
  blockInDepth : Nat → Option Block

/-- The method `Blockchain.GetBlockInDepth`. -/
def Blockchain.GetBlockInDepth (bc : Blockchain) (dep : Nat) : Option Block :=
  bc.blockInDepth dep

/-- The method `Blockchain.Head`. -/
def Blockchain.Head (bc : Blockchain) : Option Block :=
  if bc.headSeq < 0 then none
  else bc.GetBlockInDepth (bc.headSeq.toNat % 2 ^ 64)

/-- The loop of `Blockchain.GetBlocks`, `for i := start; i <= end; i++`, over
`uint64` counters; `fuel` bounds the number of iterations and `none` means the
bound was reached before the loop ended. -/
def Blockchain.getBlocksLoop (bc : Blockchain) :
    Nat → Nat → Nat → List Block → Option (List Block)
  | 0, _, _, _ => none
  | fuel + 1, i, last, blocks =>
    if i ≤ last then
      match bc.blockInDepth i with
      | none => some blocks
      | some b => bc.getBlocksLoop fuel ((i + 1) % 2 ^ 64) last (blocks ++ [b])
    else some blocks

/-- The method `Blockchain.GetBlocks`, with `fuel` for its loop. -/
def Blockchain.GetBlocks (bc : Blockchain) (fuel : Nat) (start last : Nat) :
    Option (List Block) :=
  if start > last then some []
  else bc.getBlocksLoop fuel start last []

/-- The method `Blockchain.GetLastBlocks`, with `fuel` for the loop of
`GetBlocks`: `start` is computed in `uint64`, where the test `start < 0` never
holds; a nil head makes `Seq()` panic. `Except.ok none` means the fuel ran out. -/
def Blockchain.GetLastBlocks (bc : Blockchain) (fuel : Nat) (num : Nat) :
    Except Crash (Option (List Block)) :=
  let blocks : List Block := []
  if num = 0 then .ok (some blocks)
  else
    match bc.Head with
    | none => .error .panic
    | some head =>
      let last := head.Seq
      let start := (last + 2 ^ 64 - num % 2 ^ 64 + 1) % 2 ^ 64
      let start := if start < 0 then 0 else start
      .ok (bc.GetBlocks fuel start last)

/-- A chain of the blocks with sequence 0 up to `h`, block `i` carrying the
body `100 + i`. -/
def chainUpTo (h : Nat) : Blockchain where
  headSeq := h
  blockInDepth := fun dep => if dep ≤ h then some ⟨dep, 100 + dep⟩ else none

/-- The blocks with sequence `lo` up to `hi` of `chainUpTo`, in ascending order:
what "the latest blocks" names for `lo = max(0, h - num + 1)` and `hi = h`. -/
def specBlocks (lo hi : Nat) : List Block :=
  (List.range (hi + 1 - lo)).map (fun j => ⟨lo + j, 100 + (lo + j)⟩)

/-! ## Lemmas on the map model -/

theorem GoMap.ext_entries {κ ν : Type} {m n : GoMap κ ν} (h : m.entries = n.entries) :
    m = n := by
  cases m; cases n; cases h; rfl

theorem GoMap.find?_eq_none_iff {κ ν : Type} [DecidableEq κ] (m : GoMap κ ν) (k : κ) :
    m.find? k = none ↔ ∀ e ∈ m.entries, e.1 ≠ k := by
  simp [GoMap.find?, List.find?_eq_none]

theorem GoMap.erase_of_find?_none {κ ν : Type} [DecidableEq κ] (m : GoMap κ ν) (k : κ)
    (h : m.find? k = none) : m.erase k = m := by
  apply GoMap.ext_entries
  rw [GoMap.find?_eq_none_iff] at h
  simp only [GoMap.erase]
  rw [List.filter_eq_self]
  intro e he
  simpa using h e he

theorem GoMap.find?_insert_self {κ ν : Type} [DecidableEq κ] (m : GoMap κ ν) (k : κ)
    (v : ν) : (m.insert k v).find? k = some v := by
  simp [GoMap.find?, GoMap.insert]

theorem GoMap.countP_insert_self {κ ν : Type} [DecidableEq κ] (m : GoMap κ ν) (k : κ)
    (v : ν) : (m.insert k v).entries.countP (fun e => decide (e.1 = k)) = 1 := by
  have h0 : (m.erase k).entries.countP (fun e => decide (e.1 = k)) = 0 := by
    rw [List.countP_eq_zero]
    intro e he
    simp only [GoMap.erase, List.mem_filter] at he
    simpa using he.2
  simp [GoMap.insert, List.countP_cons, h0]

theorem GoMap.countP_of_find?_some {κ ν : Type} [DecidableEq κ] (m : GoMap κ ν) (k : κ)
    (t : ν) (h : m.find? k = some t) :
    m.entries.countP (fun e => decide (e.1 = k)) = 1 := by
  have hmem : k ∈ m.entries.map Prod.fst := by
    unfold GoMap.find? at h
    cases he : m.entries.find? (fun e => decide (e.1 = k)) with
    | none => rw [he] at h; exact absurd h (by simp)
    | some e =>
      have h1 := List.mem_of_find?_eq_some he
      have h2 := List.find?_some he
      simp only [decide_eq_true_eq] at h2
      exact List.mem_map.mpr ⟨e, h1, h2⟩
  have hc := List.count_eq_one_of_mem m.nodup hmem
  rw [List.count, List.countP_map] at hc
  rw [← hc]
  apply List.countP_congr
  intro e _
  simp only [Function.comp, beq_iff_eq, decide_eq_true_eq]

theorem goInt_of_range (v : Int) (h1 : -2 ^ 63 ≤ v) (h2 : v < 2 ^ 63) : goInt v = v := by
  unfold goInt
  norm_num at h1 h2 ⊢
  have e : (v + 9223372036854775808) % 18446744073709551616
      = v + 9223372036854775808 := Int.emod_eq_of_lt (by omega) (by omega)
  omega

/-! ## Task registry -/

/-- C1, as stated, fails on a torn-down registry: with a nil task map `AddExtTask`
ends in a run-time panic (assignment to an entry of a nil map) and returns no id. -/
theorem AddExtTask_nil_map_panics :
    AddExtTask nilRegistry sampleTaskA = .error .panic ∧
    ¬ ∃ g1, AddExtTask nilRegistry sampleTaskA = .ok (GetId sampleTaskA, g1) := by
  refine ⟨rfl, ?_⟩
  rintro ⟨g1, h⟩
  have h2 : AddExtTask nilRegistry sampleTaskA = .error .panic := rfl
  rw [h2] at h
  cases h

/-- C1 (amended): for every initialised registry (its task map is not nil) and
every task `ep`, two calls of `AddExtTask ep` in a row both return `GetId ep`; the
second call leaves the registry exactly as the first call left it; that registry has
exactly one entry under the id; when the id was registered before (with whatever
task object) the first call changes nothing and the registered task stays under
the id, and when it was not, `ep` is stored under it. -/
theorem AddExtTask_twice {τ : Type} [ExtTaskInterface τ] (g : ExtTaskList τ) (ep : τ)
    (hinit : g.TaskMap.isSome = true) :
    ∃ g1 : ExtTaskList τ,
      AddExtTask g ep = .ok (GetId ep, g1) ∧
      AddExtTask g1 ep = .ok (GetId ep, g1) ∧
      mapCount g1.TaskMap (GetId ep) = 1 ∧
      (∀ t0, mapIndex g.TaskMap (GetId ep) = some t0 →
        g1 = g ∧ mapIndex g1.TaskMap (GetId ep) = some t0) ∧
      (mapIndex g.TaskMap (GetId ep) = none →
        mapIndex g1.TaskMap (GetId ep) = some ep) := by
  obtain ⟨tm⟩ := g
  cases tm with
  | none => simp at hinit
  | some m =>
    cases hf : m.find? (GetId ep) with
    | some t0 =>
      have hrun : ExtProcessIsRunning (⟨some m⟩ : ExtTaskList τ) (GetId ep) = true := by
        simp [ExtProcessIsRunning, mapIndex, hf]
      have hadd : AddExtTask (⟨some m⟩ : ExtTaskList τ) ep = .ok (GetId ep, ⟨some m⟩) := by
        simp [AddExtTask, hrun]
      refine ⟨⟨some m⟩, hadd, hadd, ?_, ?_, ?_⟩
      · exact GoMap.countP_of_find?_some m _ t0 hf
      · intro t1 h1
        exact ⟨rfl, h1⟩
      · intro h1
        simp [mapIndex, hf] at h1
    | none =>
      have hrun : ExtProcessIsRunning (⟨some m⟩ : ExtTaskList τ) (GetId ep) = false := by
        simp [ExtProcessIsRunning, mapIndex, hf]
      have hrun1 : ExtProcessIsRunning
          (⟨some (m.insert (GetId ep) ep)⟩ : ExtTaskList τ) (GetId ep) = true := by
        simp [ExtProcessIsRunning, mapIndex, GoMap.find?_insert_self]
      refine ⟨⟨some (m.insert (GetId ep) ep)⟩, ?_, ?_, ?_, ?_, ?_⟩
      · simp [AddExtTask, hrun, mapAssign]
      · simp [AddExtTask, hrun1]
      · exact GoMap.countP_insert_self m _ ep
      · intro t0 h0
        simp [mapIndex, hf] at h0
      · intro _
        simp [mapIndex, GoMap.find?_insert_self]

/-- Witness of `AddExtTask_twice`: a registry holding a task under id 7, and a
different task object with the same id. -/
theorem AddExtTask_twice_witness :
    sampleRegistry.TaskMap.isSome = true ∧
    ∃ g1 : ExtTaskList SampleTask,
      AddExtTask sampleRegistry sampleTaskB = .ok (7, g1) ∧
      AddExtTask g1 sampleTaskB = .ok (7, g1) ∧
      mapCount g1.TaskMap 7 = 1 ∧
      mapIndex g1.TaskMap 7 = some sampleTaskA :=
  ⟨rfl, (AddExtTask_twice sampleRegistry sampleTaskB rfl).imp
    (fun _ h => ⟨h.1, h.2.1, h.2.2.1, (h.2.2.2.1 sampleTaskA rfl).2⟩)⟩

theorem containsText_middle (a b c : String) : containsText (a ++ b ++ c) b := by
  unfold containsText
  simp only [String.data_append]
  exact List.infix_append _ _ _

/-- C2, as stated, fails for an id outside the range of `int`: for the id
2^64 - 1, not a key of the task map, `GetExtProcess` returns the error "External
process with id -1 doesn't exist!", which renders `int(id) = -1` and does not
contain the decimal rendering 18446744073709551615 of the id. -/
theorem GetExtProcess_wraps_large_id :
    mapIndex sampleRegistry.TaskMap (2 ^ 64 - 1) = none ∧
    GetExtProcess sampleRegistry (2 ^ 64 - 1)
      = .ok (none, some "External process with id -1 doesn't exist!") ∧
    Itoa (2 ^ 64 - 1) = "18446744073709551615" ∧
    ¬ containsText "External process with id -1 doesn't exist!" (Itoa (2 ^ 64 - 1)) := by
  refine ⟨rfl, rfl, by decide, ?_⟩
  unfold containsText
  decide

/-- C2 (amended): for every registry state and every id, `GetExtProcess` completes
normally, also on a torn-down (nil) map; when the id is a key of the task map it
returns the task stored under it and a nil error; otherwise it returns a nil task
and the error "External process with id <n> doesn't exist!" where `<n>` is the
decimal rendering of `int(id)`, which the message contains; for every id in the
range of `int` that is the decimal rendering of the id itself. -/
theorem GetExtProcess_found_or_error_naming_int {τ : Type} (g : ExtTaskList τ)
    (id : ExtTaskId) :
    (∀ t, mapIndex g.TaskMap id = some t → GetExtProcess g id = .ok (some t, none)) ∧
    (mapIndex g.TaskMap id = none →
      GetExtProcess g id = .ok (none,
        some ("External process with id " ++ Itoa (goInt id) ++ " doesn't exist!")) ∧
      containsText ("External process with id " ++ Itoa (goInt id) ++ " doesn't exist!")
        (Itoa (goInt id))) ∧
    (mapIndex g.TaskMap id = none → -2 ^ 63 ≤ id → id < 2 ^ 63 →
      GetExtProcess g id = .ok (none,
        some ("External process with id " ++ Itoa id ++ " doesn't exist!")) ∧
      containsText ("External process with id " ++ Itoa id ++ " doesn't exist!")
        (Itoa id)) ∧
    GetExtProcess (teardownExtTaskList g) id = .ok (none,
        some ("External process with id " ++ Itoa (goInt id) ++ " doesn't exist!")) := by
  refine ⟨?_, ?_, ?_, ?_⟩
  · intro t h
    simp [GetExtProcess, h]
  · intro h
    exact ⟨by simp [GetExtProcess, h], containsText_middle _ _ _⟩
  · intro h h1 h2
    have hg : goInt id = id := goInt_of_range id h1 h2
    exact ⟨by simp [GetExtProcess, h, hg], containsText_middle _ _ _⟩
  · simp [GetExtProcess, teardownExtTaskList, mapIndex]

/-- Witness of `GetExtProcess_found_or_error_naming_int`: a present id, an absent
id in the range of `int`, and an absent id on a nil map. -/
theorem GetExtProcess_witness :
    GetExtProcess sampleRegistry 7 = .ok (some sampleTaskA, none) ∧
    (GetExtProcess sampleRegistry 8 =
      .ok (none, some "External process with id 8 doesn't exist!") ∧
     containsText "External process with id 8 doesn't exist!" "8") ∧
    (GetExtProcess nilRegistry (-3) =
      .ok (none, some "External process with id -3 doesn't exist!") ∧
     containsText "External process with id -3 doesn't exist!" "-3") :=
  ⟨(GetExtProcess_found_or_error_naming_int sampleRegistry 7).1 sampleTaskA rfl,
   (GetExtProcess_found_or_error_naming_int sampleRegistry 8).2.2.1 rfl
     (by decide) (by decide),
   (GetExtProcess_found_or_error_naming_int nilRegistry (-3)).2.2.1 rfl
     (by decide) (by decide)⟩

/-- C3: for every registry state (a nil task map included) and every id that is
not registered, `RemoveExtProcess` completes normally and leaves the registry, and
so the task map, exactly as it was. -/
theorem RemoveExtProcess_absent {τ : Type} (g : ExtTaskList τ) (id : ExtTaskId)
    (h : ExtProcessIsRunning g id = false) : RemoveExtProcess g id = .ok g := by
  obtain ⟨tm⟩ := g
  cases tm with
  | none => rfl
  | some m =>
    have hf : m.find? id = none := by
      simpa [ExtProcessIsRunning, mapIndex] using h
    simp [RemoveExtProcess, mapDelete, GoMap.erase_of_find?_none m id hf]

/-- Witness of `RemoveExtProcess_absent`: id 8 is not registered in a registry
holding id 7. -/
theorem RemoveExtProcess_absent_witness :
    ExtProcessIsRunning sampleRegistry 8 = false ∧
    RemoveExtProcess sampleRegistry 8 = .ok sampleRegistry :=
  ⟨rfl, RemoveExtProcess_absent sampleRegistry 8 rfl⟩

/-! ## Channel bus -/

/-- C4: for every `DbusInstance` (initialised or not) and every pair (id, type),
`ResourceRegister` completes normally with `Resources` equal to the old list
followed by the one descriptor (id, type): the length grows by one, every earlier
position keeps its entry, `PubsubChannels` is unchanged, and registering the same
pair again adds a second, equal descriptor. -/
theorem ResourceRegister_appends {χ : Type} (self : DbusInstance χ) (id : ResourceId)
    (ty : ResourceType) :
    ∃ d1 : DbusInstance χ,
      self.ResourceRegister id ty = .ok d1 ∧
      d1.Resources = self.Resources ++ [⟨id, ty⟩] ∧
      d1.Resources.length = self.Resources.length + 1 ∧
      (∀ i, i < self.Resources.length → d1.Resources.get? i = self.Resources.get? i) ∧
      d1.PubsubChannels = self.PubsubChannels ∧
      ∃ d2 : DbusInstance χ,
        d1.ResourceRegister id ty = .ok d2 ∧
        d2.Resources = self.Resources ++ [⟨id, ty⟩, ⟨id, ty⟩] ∧
        d2.Resources.count ⟨id, ty⟩ = self.Resources.count ⟨id, ty⟩ + 2 ∧
        d2.PubsubChannels = self.PubsubChannels := by
  refine ⟨{ self with Resources := self.Resources ++ [⟨id, ty⟩] }, rfl, rfl, ?_, ?_, rfl,
    { self with Resources := self.Resources ++ [⟨id, ty⟩] ++ [⟨id, ty⟩] }, rfl, ?_, ?_, rfl⟩
  · simp
  · intro i hi
    simp only [List.get?_eq_getElem?]
    exact List.getElem?_append_left hi
  · simp
  · simp [List.count_append]

/-- Witness of `ResourceRegister_appends`: on a bus already holding (1, 1),
registering (1, 1) gives two equal entries and position 0 keeps its entry. -/
theorem ResourceRegister_appends_witness :
    ∃ d1 : DbusInstance Unit,
      sampleBus.ResourceRegister 1 1 = .ok d1 ∧
      d1.Resources = [⟨1, 1⟩, ⟨1, 1⟩] ∧
      d1.Resources.get? 0 = sampleBus.Resources.get? 0 :=
  (ResourceRegister_appends sampleBus 1 1).imp
    (fun _ h => ⟨h.1, h.2.1, h.2.2.2.1 0 (by decide)⟩)

/-- C5 at a failing input: `ResourceUnregister` has an empty body, so on a bus
holding the descriptor (1, 1) the call `ResourceUnregister(1, 1)` leaves that
descriptor in `Resources`, where removing the first matching entry gives the empty
list; on every bus it returns the bus as it was. -/
theorem ResourceUnregister_keeps_match :
    sampleBus.ResourceUnregister 1 1 = .ok sampleBus ∧
    sampleBus.Resources = [⟨1, 1⟩] ∧
    specUnregister sampleBus.Resources 1 1 = [] ∧
    ∀ (d : DbusInstance Unit) (id : ResourceId) (ty : ResourceType),
      d.ResourceUnregister id ty = .ok d :=
  ⟨rfl, rfl, rfl, fun _ _ _ => rfl⟩

/-! ## Message type tag -/

theorem GetMessageTypeUInt16_cons2 (b0 b1 : Byte) (rest spare : List Byte) :
    GetMessageTypeUInt16 ⟨b0 :: b1 :: rest, spare⟩ = .ok (b0.val + 256 * b1.val) := by
  have hs : (ByteSlice.mk (b0 :: b1 :: rest) spare).slice 0 2
      = .ok ⟨[b0, b1], rest ++ spare⟩ := by
    have hc : (2 : Int) ≤ ((ByteSlice.mk (b0 :: b1 :: rest) spare).cap : Int) := by
      simp only [ByteSlice.cap, List.length_cons]
      omega
    simp [ByteSlice.slice, hc]
  simp [GetMessageTypeUInt16, hs, readUintLE, leValue]

/-- C6: for every byte buffer of length at least 2, `GetMessageTypeUInt16`
completes normally with `b0 + 256 * b1`, where `b0` and `b1` are the first two
bytes of the buffer, and it returns that same value whatever the later bytes of
the buffer and of its backing array are. -/
theorem GetMessageTypeUInt16_little_endian (message : ByteSlice)
    (h : 2 ≤ message.len) :
    ∃ (b0 b1 : Byte) (rest : List Byte),
      message.elems = b0 :: b1 :: rest ∧
      GetMessageTypeUInt16 message = .ok (b0.val + 256 * b1.val) ∧
      ∀ rest1 spare1 : List Byte,
        GetMessageTypeUInt16 ⟨b0 :: b1 :: rest1, spare1⟩ = .ok (b0.val + 256 * b1.val) := by
  obtain ⟨elems, spare⟩ := message
  match elems, h with
  | b0 :: b1 :: rest, _ =>
    exact ⟨b0, b1, rest, rfl, GetMessageTypeUInt16_cons2 b0 b1 rest spare,
      fun rest1 spare1 => GetMessageTypeUInt16_cons2 b0 b1 rest1 spare1⟩

/-- Witness of `GetMessageTypeUInt16_little_endian`: the buffer 5, 1, 9. -/
theorem GetMessageTypeUInt16_little_endian_witness :
    2 ≤ (ByteSlice.ofList [5, 1, 9]).len ∧
    ∃ (b0 b1 : Byte) (rest : List Byte),
      (ByteSlice.ofList [5, 1, 9]).elems = b0 :: b1 :: rest ∧
      GetMessageTypeUInt16 (ByteSlice.ofList [5, 1, 9]) = .ok (b0.val + 256 * b1.val) :=
  ⟨by decide, (GetMessageTypeUInt16_little_endian (ByteSlice.ofList [5, 1, 9])
    (by decide)).imp (fun _ h1 => h1.imp (fun _ h2 => h2.imp (fun _ h3 => ⟨h3.1, h3.2.1⟩)))⟩

/-- C7, as stated, fails on short buffers: on a buffer of length 0 and on a buffer
of length 1 (capacity equal to length) `GetMessageTypeUInt16` ends in a run-time
panic (`message[0:2]` is out of range), and on a buffer of length 1 with one spare
byte of capacity it returns the tag read from the backing array, no sentinel. -/
theorem GetMessageTypeUInt16_short_buffer :
    GetMessageTypeUInt16 (ByteSlice.ofList []) = .error .panic ∧
    GetMessageTypeUInt16 (ByteSlice.ofList [5]) = .error .panic ∧
    GetMessageTypeUInt16 ⟨[5], [1]⟩ = .ok 261 := by
  exact ⟨rfl, rfl, rfl⟩

/-- C7 (amended): for every byte buffer, `GetMessageTypeUInt16` returns a value
without panicking exactly when the capacity of the buffer is at least 2, and the
value is then the little-endian value of the first two bytes of its backing array;
on a buffer of capacity below 2 it panics. -/
theorem GetMessageTypeUInt16_by_capacity (message : ByteSlice) :
    GetMessageTypeUInt16 message =
      if 2 ≤ message.cap then .ok (leValue ((message.elems ++ message.spare).take 2))
      else .error .panic := by
  by_cases h : 2 ≤ message.cap
  · have hs : message.slice 0 2
        = .ok ⟨(message.elems ++ message.spare).take 2, (message.elems ++ message.spare).drop 2⟩ := by
      have h2 : (2 : Int) ≤ (message.cap : Int) := by exact_mod_cast h
      simp [ByteSlice.slice, h2]
    have hl : ((message.elems ++ message.spare).take 2).length = 2 := by
      simp only [ByteSlice.cap] at h
      simp only [List.length_take, List.length_append]
      omega
    simp [GetMessageTypeUInt16, hs, readUintLE, hl, h, List.take_take]
  · have hs : message.slice 0 2 = .error .panic := by
      have h2 : ¬ (2 : Int) ≤ (message.cap : Int) := by
        intro hc
        exact h (by exact_mod_cast hc)
      simp [ByteSlice.slice, h2]
    simp [GetMessageTypeUInt16, hs, h]

/-! ## Dispatch -/

theorem MustDeserialize_short {P : Type} (c : Codec P) (b : ByteSlice)
    (h : b.len < c.shape) : MustDeserialize c b = .error .fatal := by
  simp [MustDeserialize, c.decode_short b h]

/-- C8: for every terminal, terminal stack and message whose type tag, read after
the 4-byte channel-id prefix, is none of Clear, CommandPrompt, MoveTerminal,
PutChar, SetCharAt, TokenizedCommand, Key, MouseScroll, `Terminal.UnpackMessage`
completes normally, returns the message without its prefix and leaves the terminal
and the stack unchanged; and for every message whose type tag is none of MousePos,
MouseScroll, MouseButton, Character, Key, `processMessage` completes normally and
leaves the focused panel (document and cursor) and the rest of the state
unchanged, only resetting `curRecByte` to 0. -/
theorem unknown_tag_changes_nothing {d : MsgDecls} {ρ γ δ : Type}
    (k : TermCollab d ρ γ) (kc : MsgCollab δ) :
    (∀ (t : Terminal ρ) (g : γ) (message rest : ByteSlice) (ty : Nat),
      message.sliceFrom 4 = .ok rest → GetType rest = .ok ty → ty ∉ d.terminalTags →
      Terminal.UnpackMessage k (t, g) message = .ok (rest, t, g)) ∧
    (∀ (st : MsgState δ) (message : ByteSlice) (ty : Nat),
      GetMessageTypeUInt16 message = .ok ty → ty ∉ d.messageTags →
      processMessage d kc st message = .ok { st with curRecByte := 0 }) := by
  constructor
  · intro t g message rest ty hs ht hne
    simp only [MsgDecls.terminalTags, List.mem_cons, List.mem_singleton, not_or,
      List.not_mem_nil, not_false_eq_true, and_true] at hne
    obtain ⟨h1, h2, h3, h4, h5, h6, h7, h8⟩ := hne
    simp [Terminal.UnpackMessage, hs, ht, h1, h2, h3, h4, h5, h6, h7, h8]
  · intro st message ty ht hne
    simp only [MsgDecls.messageTags, List.mem_cons, List.mem_singleton, not_or,
      List.not_mem_nil, not_false_eq_true, and_true] at hne
    obtain ⟨h1, h2, h3, h4, h5⟩ := hne
    simp [processMessage, ht, h1, h2, h3, h4, h5]

/-- Witness of `unknown_tag_changes_nothing`: tag 99 is in neither dispatcher. -/
theorem unknown_tag_witness :
    Terminal.UnpackMessage sampleTermCollab (sampleTerminal, ())
        (ByteSlice.ofList [0, 0, 0, 0, 99, 0, 65])
      = .ok (ByteSlice.ofList [99, 0, 65], sampleTerminal, ()) ∧
    processMessage sampleDecls sampleMsgCollab sampleMsgState (ByteSlice.ofList [99, 0])
      = .ok { sampleMsgState with curRecByte := 0 } :=
  ⟨(unknown_tag_changes_nothing sampleTermCollab sampleMsgCollab).1 sampleTerminal ()
      (ByteSlice.ofList [0, 0, 0, 0, 99, 0, 65]) (ByteSlice.ofList [99, 0, 65]) 99
      rfl rfl (by decide),
   (unknown_tag_changes_nothing sampleTermCollab sampleMsgCollab).2 sampleMsgState
      (ByteSlice.ofList [99, 0]) 99 rfl (by decide)⟩

/-- C9, as stated, fails: a buffer carrying the Key tag and one payload byte makes
both dispatchers end in the process-terminating failure of `MustDeserialize`; a
buffer shorter than the channel prefix makes `Terminal.UnpackMessage` end in a
run-time panic (`message[4:]`), and a buffer shorter than the tag makes
`processMessage` end in one (`message[0:2]`); neither yields an error result. -/
theorem truncated_buffer_crashes :
    Terminal.UnpackMessage sampleTermCollab (sampleTerminal, ())
        (ByteSlice.ofList [0, 0, 0, 0, 5, 0, 13]) = .error .fatal ∧
    processMessage sampleDecls sampleMsgCollab sampleMsgState
        (ByteSlice.ofList [5, 0, 13]) = .error .fatal ∧
    Terminal.UnpackMessage sampleTermCollab (sampleTerminal, ())
        (ByteSlice.ofList [0, 0]) = .error .panic ∧
    Terminal.UnpackMessage sampleTermCollab (sampleTerminal, ())
        (ByteSlice.ofList [0, 0, 0]) = .error .panic ∧
    processMessage sampleDecls sampleMsgCollab sampleMsgState
        (ByteSlice.ofList [5]) = .error .panic :=
  ⟨rfl, rfl, rfl, rfl, rfl⟩

/-- C9 (amended): for every tag whose case decodes a payload with `MustDeserialize`
and every buffer from which that tag is read but which is shorter than the fixed
shape of that payload, `Terminal.UnpackMessage` (tag read after the 4-byte prefix)
and `processMessage` end in the process-terminating failure of `MustDeserialize`:
no handler runs and no error value is returned. -/
theorem truncated_payload_is_fatal {d : MsgDecls} {ρ γ δ : Type}
    (k : TermCollab d ρ γ) (kc : MsgCollab δ) :
    (∀ (t : Terminal ρ) (g : γ) (message rest : ByteSlice) (ty n : Nat),
      message.sliceFrom 4 = .ok rest → GetType rest = .ok ty →
      d.unpackShape ty = some n → rest.len < n →
      Terminal.UnpackMessage k (t, g) message = .error .fatal) ∧
    (∀ (st : MsgState δ) (message : ByteSlice) (ty n : Nat),
      GetMessageTypeUInt16 message = .ok ty →
      d.processShape ty = some n → message.len < n →
      processMessage d kc st message = .error .fatal) := by
  constructor
  · intro t g message rest ty n hs ht hshape hlen
    simp only [MsgDecls.unpackShape] at hshape
    split_ifs at hshape with h1 h2 h3 h4 h5 h6 h7 h8 <;>
      (cases hshape
       subst_vars
       simp [Terminal.UnpackMessage, hs, ht, MustDeserialize_short _ _ hlen, *])
  · intro st message ty n ht hshape hlen
    simp only [MsgDecls.processShape] at hshape
    split_ifs at hshape with h1 h2 h3 h4 h5 <;>
      (cases hshape
       subst_vars
       simp [processMessage, ht, MustDeserialize_short _ _ hlen, Except.map, *])

/-- Witness of `truncated_payload_is_fatal`: the Key tag (5) with one payload byte
where the Key message has a shape of 9 bytes. -/
theorem truncated_payload_witness :
    Terminal.UnpackMessage sampleTermCollab (sampleTerminal, ())
        (ByteSlice.ofList [0, 0, 0, 0, 5, 0, 13]) = .error .fatal ∧
    processMessage sampleDecls sampleMsgCollab sampleMsgState
        (ByteSlice.ofList [5, 0, 13]) = .error .fatal :=
  ⟨(truncated_payload_is_fatal sampleTermCollab sampleMsgCollab).1 sampleTerminal ()
      (ByteSlice.ofList [0, 0, 0, 0, 5, 0, 13]) (ByteSlice.ofList [5, 0, 13]) 5 9
      rfl rfl rfl (by decide),
   (truncated_payload_is_fatal sampleTermCollab sampleMsgCollab).2 sampleMsgState
      (ByteSlice.ofList [5, 0, 13]) 5 9 rfl rfl (by decide)⟩

/-! ## Rune insertion -/

theorem strSlice_whole (s : GoString) : strSlice s 0 (s.length : Int) = .ok s := by
  simp [strSlice]

theorem InsertRune_past_end {γ : Type} (st : MsgState γ) (message rBuf : ByteSlice)
    (value : Int) (b : List GoString) (line : GoString)
    (hs : message.slice st.curRecByte (st.curRecByte + 4) = .ok rBuf)
    (hv : readRuneLE rBuf.elems = some value)
    (hb : goIndex st.Focused.TextBodies 0 = .ok b)
    (hl : goIndex b st.Focused.CursY = .ok line)
    (hx : st.Focused.CursX > (line.length : Int)) :
    InsertRuneIntoDocumentTest st message = .ok
      { st with
        curRecByte := st.curRecByte + 4
        Focused := { st.Focused with
          TextBodies := st.Focused.TextBodies.set 0
            (b.set st.Focused.CursY.toNat (line ++ line ++ runeString value))
          CursX := st.Focused.CursX + 1 } } := by
  have hd : st.Focused.CursX - (st.Focused.CursX - (line.length : Int))
      = (line.length : Int) := by omega
  simp [InsertRuneIntoDocumentTest, hs, hv, hb, hl, hx, hd, strSlice_whole]

/-- C10 at a failing input: with the line "ab", the cursor at column 5 (the length
of the line plus 3) and the rune 'A', `InsertRuneIntoDocumentTest` makes the line
"ababA", the old content twice and then the rune, where the old content followed
by the rune is "abA"; the cursor column becomes 6. -/
theorem InsertRune_past_end_duplicates_line :
    InsertRuneIntoDocumentTest sampleMsgState (ByteSlice.ofList [65, 0, 0, 0]) = .ok
      { curRecByte := 4
        Focused := { TextBodies := [[[97, 98, 97, 98, 65]]], CursX := 6, CursY := 0 }
        others := () } ∧
    ([97, 98] ++ runeString 65 : GoString) = [97, 98, 65] ∧
    ([97, 98, 97, 98, 65] : GoString) ≠ [97, 98] ++ runeString 65 :=
  ⟨rfl, rfl, by decide⟩

/-! ## Rune insertion inside the line and the cursor invariant -/

theorem strSlice_take (s : GoString) (x : Int) (h0 : 0 ≤ x) (h1 : x ≤ (s.length : Int)) :
    strSlice s 0 x = .ok (s.take x.toNat) := by
  simp [strSlice, h0, h1]

theorem strSlice_drop (s : GoString) (x : Int) (h0 : 0 ≤ x) (h1 : x ≤ (s.length : Int)) :
    strSlice s x (s.length : Int) = .ok (s.drop x.toNat) := by
  have hlen : (s.drop x.toNat).length ≤ s.length - x.toNat := by simp
  simp [strSlice, h0, h1, List.take_of_length_le hlen]

theorem goIndex_set_same {α : Type} (xs : List α) (i : Int) (x v : α)
    (h : goIndex xs i = .ok x) : goIndex (xs.set i.toNat v) i = .ok v := by
  unfold goIndex at h ⊢
  by_cases h0 : 0 ≤ i
  · simp only [h0, if_true] at h ⊢
    cases hg : xs.get? i.toNat with
    | none => rw [hg] at h; cases h
    | some y =>
      have hlt : i.toNat < xs.length := by
        rw [List.get?_eq_some] at hg
        exact hg.1
      simp [List.getElem?_set, hlt]
  · simp [h0] at h

theorem runeString_length_pos (r : Int) : 1 ≤ (runeString r).length := by
  simp only [runeString]
  split_ifs <;> simp

theorem ByteSlice.slice_length (s r : ByteSlice) (lo hi : Int)
    (h : s.slice lo hi = .ok r) : r.elems.length = hi.toNat - lo.toNat := by
  unfold ByteSlice.slice at h
  split_ifs at h with hc
  cases h
  obtain ⟨h0, h1, h2⟩ := hc
  have hcap : hi.toNat ≤ (s.elems ++ s.spare).length := by
    simp only [ByteSlice.cap] at h2
    simp only [List.length_append]
    omega
  simp only [List.length_take, List.length_drop]
  omega

theorem readRuneLE_of_slice (s r : ByteSlice) (lo : Int)
    (h : s.slice lo (lo + 4) = .ok r) : ∃ value, readRuneLE r.elems = some value := by
  have hl := ByteSlice.slice_length s r lo (lo + 4) h
  have h0 : 0 ≤ lo := by
    unfold ByteSlice.slice at h
    split_ifs at h with hc
    exact hc.1
  have h4 : r.elems.length = 4 := by omega
  simp [readRuneLE, readUintLE, h4]

theorem InsertRune_inside {γ : Type} (st : MsgState γ) (message rBuf : ByteSlice)
    (r : Int) (b : List GoString) (s : GoString)
    (hs : message.slice st.curRecByte (st.curRecByte + 4) = .ok rBuf)
    (hv : readRuneLE rBuf.elems = some r)
    (hb : goIndex st.Focused.TextBodies 0 = .ok b)
    (hl : goIndex b st.Focused.CursY = .ok s)
    (h0 : 0 ≤ st.Focused.CursX) (h1 : st.Focused.CursX ≤ (s.length : Int)) :
    InsertRuneIntoDocumentTest st message = .ok
      { st with
        curRecByte := st.curRecByte + 4
        Focused := { st.Focused with
          TextBodies := st.Focused.TextBodies.set 0
            (b.set st.Focused.CursY.toNat
              (s.take st.Focused.CursX.toNat ++ runeString r ++ s.drop st.Focused.CursX.toNat))
          CursX := st.Focused.CursX + 1 } } := by
  have hx : ¬ st.Focused.CursX > (s.length : Int) := by omega
  simp [InsertRuneIntoDocumentTest, hs, hv, hb, hl, hx, strSlice_take s _ h0 h1,
    strSlice_drop s _ h0 h1]

theorem currentLine_after_set (f : TextPanel) (b : List GoString) (s v : GoString) (x : Int)
    (hb : goIndex f.TextBodies 0 = .ok b) (hl : goIndex b f.CursY = .ok s) :
    TextPanel.currentLine
      { f with TextBodies := f.TextBodies.set 0 (b.set f.CursY.toNat v), CursX := x }
      = .ok v := by
  have h1 := goIndex_set_same f.TextBodies 0 b (b.set f.CursY.toNat v) hb
  have h2 := goIndex_set_same b f.CursY s v hl
  simp only [Int.toNat_zero] at h1
  simp [TextPanel.currentLine, h1, h2]

/-- C11: for every line `s` of the focused text body and every cursor column `x`
with `0 ≤ x ≤ len(s)`, `InsertRuneIntoDocumentTest` reading the rune `r` completes
normally, makes the line the cursor is in equal to `s[:x] + string(r) + s[x:]`
(the two parts of `s` give back `s`: nothing lost, nothing duplicated), sets
`CursX` to `x + 1` and leaves `CursY` as it was. -/
theorem InsertRune_in_bounds_splices {γ : Type} (st : MsgState γ)
    (message rBuf : ByteSlice) (r : Int) (b : List GoString) (s : GoString)
    (hs : message.slice st.curRecByte (st.curRecByte + 4) = .ok rBuf)
    (hv : readRuneLE rBuf.elems = some r)
    (hb : goIndex st.Focused.TextBodies 0 = .ok b)
    (hl : goIndex b st.Focused.CursY = .ok s)
    (h0 : 0 ≤ st.Focused.CursX) (h1 : st.Focused.CursX ≤ (s.length : Int)) :
    ∃ st1 : MsgState γ,
      InsertRuneIntoDocumentTest st message = .ok st1 ∧
      st1.Focused.currentLine = .ok
        (s.take st.Focused.CursX.toNat ++ runeString r ++ s.drop st.Focused.CursX.toNat) ∧
      s.take st.Focused.CursX.toNat ++ s.drop st.Focused.CursX.toNat = s ∧
      st1.Focused.CursX = st.Focused.CursX + 1 ∧
      st1.Focused.CursY = st.Focused.CursY := by
  refine ⟨_, InsertRune_inside st message rBuf r b s hs hv hb hl h0 h1, ?_, ?_, rfl, rfl⟩
  · exact currentLine_after_set st.Focused b s _ _ hb hl
  · exact List.take_append_drop _ _

/-- Witness of `InsertRune_in_bounds_splices`: the line "ab", the cursor at
column 1 and the rune 'A' give the line "aAb" and the cursor at column 2. -/
theorem InsertRune_in_bounds_witness :
    ∃ st1 : MsgState Unit,
      InsertRuneIntoDocumentTest inBoundsMsgState (ByteSlice.ofList [65, 0, 0, 0]) = .ok st1 ∧
      st1.Focused.currentLine = .ok [97, 65, 98] ∧
      st1.Focused.CursX = 2 :=
  (InsertRune_in_bounds_splices inBoundsMsgState (ByteSlice.ofList [65, 0, 0, 0])
    (ByteSlice.ofList [65, 0, 0, 0]) 65 [[97, 98]] [97, 98] rfl rfl rfl rfl
    (by decide) (by decide)).imp (fun _ h => ⟨h.1, h.2.1, h.2.2.2.1⟩)

/-- C12, as stated, fails on the path past the end of the line: with an empty
line and the cursor at column 3, inserting 'A' leaves the line "A" of length 1
and the cursor at column 4, beyond the line; with the line "ab" and the cursor at
column 5 the line after has length 5 and the cursor is at column 6. -/
theorem InsertRune_cursor_beyond_line :
    InsertRuneIntoDocumentTest emptyLineMsgState (ByteSlice.ofList [65, 0, 0, 0]) = .ok
      { curRecByte := 4
        Focused := { TextBodies := [[[65]]], CursX := 4, CursY := 0 }
        others := () } ∧
    ¬ ((4 : Int) ≤ (([65] : GoString).length : Int)) ∧
    InsertRuneIntoDocumentTest sampleMsgState (ByteSlice.ofList [65, 0, 0, 0]) = .ok
      { curRecByte := 4
        Focused := { TextBodies := [[[97, 98, 97, 98, 65]]], CursX := 6, CursY := 0 }
        others := () } ∧
    ¬ ((6 : Int) ≤ (([97, 98, 97, 98, 65] : GoString).length : Int)) :=
  ⟨rfl, by decide, rfl, by decide⟩

/-- C12 (amended): after every rune insertion by `InsertRuneIntoDocumentTest` on
the in-bounds path (every line content, every pre-insert cursor column `x` with
`0 ≤ x ≤ len(s)`), the insertion completes normally and the cursor column is
within the current line: `CursX` is at most the length of line `CursY` after
the insert. -/
theorem InsertRune_in_bounds_cursor_within {γ : Type} (st : MsgState γ)
    (message rBuf : ByteSlice) (b : List GoString) (s : GoString)
    (hs : message.slice st.curRecByte (st.curRecByte + 4) = .ok rBuf)
    (hb : goIndex st.Focused.TextBodies 0 = .ok b)
    (hl : goIndex b st.Focused.CursY = .ok s)
    (h0 : 0 ≤ st.Focused.CursX) (h1 : st.Focused.CursX ≤ (s.length : Int)) :
    ∃ (st1 : MsgState γ) (line1 : GoString),
      InsertRuneIntoDocumentTest st message = .ok st1 ∧
      st1.Focused.currentLine = .ok line1 ∧
      st1.Focused.CursX ≤ (line1.length : Int) := by
  obtain ⟨r, hv⟩ := readRuneLE_of_slice message rBuf st.curRecByte hs
  refine ⟨_, _, InsertRune_inside st message rBuf r b s hs hv hb hl h0 h1,
    currentLine_after_set st.Focused b s _ _ hb hl, ?_⟩
  have hr := runeString_length_pos r
  simp only [List.length_append, List.length_take, List.length_drop]
  have hx : st.Focused.CursX.toNat ≤ s.length := by omega
  have hx2 : (st.Focused.CursX.toNat : Int) = st.Focused.CursX := Int.toNat_of_nonneg h0
  omega

/-- Witness of `InsertRune_in_bounds_cursor_within`: the line "ab" with the cursor
at column 1. -/
theorem InsertRune_in_bounds_cursor_witness :
    ∃ (st1 : MsgState Unit) (line1 : GoString),
      InsertRuneIntoDocumentTest inBoundsMsgState (ByteSlice.ofList [65, 0, 0, 0]) = .ok st1 ∧
      st1.Focused.currentLine = .ok line1 ∧
      st1.Focused.CursX ≤ (line1.length : Int) :=
  InsertRune_in_bounds_cursor_within inBoundsMsgState (ByteSlice.ofList [65, 0, 0, 0])
    (ByteSlice.ofList [65, 0, 0, 0]) [[97, 98]] [97, 98] rfl rfl rfl (by decide) (by decide)

/-! ## Rounding to float32 -/

theorem roundNE_eq_of_near (x : ℚ) (z : ℤ) (h : |x - z| < 1 / 2) : roundNE x = z := by
  rw [abs_lt] at h
  obtain ⟨h1, h2⟩ := h
  unfold roundNE
  by_cases hx : (z : ℚ) ≤ x
  · have hf : ⌊x⌋ = z := by
      rw [Int.floor_eq_iff]
      constructor
      · exact hx
      · linarith
    simp only [hf]
    rw [if_pos h2]
  · have hx' : x < z := not_le.mp hx
    have hf : ⌊x⌋ = z - 1 := by
      rw [Int.floor_eq_iff]
      push_cast
      constructor <;> linarith
    simp only [hf]
    have h3 : ¬ (x - ((z - 1 : ℤ) : ℚ) < 1 / 2) := by
      push_cast
      linarith
    have h4 : (1 : ℚ) / 2 < x - ((z - 1 : ℤ) : ℚ) := by
      push_cast
      linarith
    rw [if_neg h3, if_pos h4]
    omega

theorem roundNE_intCast (n : ℤ) : roundNE (n : ℚ) = n :=
  roundNE_eq_of_near _ n (by simp)

theorem roundNE_le_floor_succ (x : ℚ) : roundNE x ≤ ⌊x⌋ + 1 := by
  unfold roundNE
  simp only
  split_ifs <;> omega

theorem floor_le_roundNE (x : ℚ) : ⌊x⌋ ≤ roundNE x := by
  unfold roundNE
  simp only
  split_ifs <;> omega

theorem roundNE_nonneg (x : ℚ) (hx : 0 ≤ x) : 0 ≤ roundNE x :=
  le_trans (Int.floor_nonneg.mpr hx) (floor_le_roundNE x)

theorem roundNE_mono {x y : ℚ} (h : x ≤ y) : roundNE x ≤ roundNE y := by
  have hfl : ⌊x⌋ ≤ ⌊y⌋ := Int.floor_mono h
  rcases lt_or_eq_of_le hfl with hlt | heq
  · calc roundNE x ≤ ⌊x⌋ + 1 := roundNE_le_floor_succ x
      _ ≤ ⌊y⌋ := hlt
      _ ≤ roundNE y := floor_le_roundNE y
  · unfold roundNE
    simp only [heq]
    have hxy : x - ⌊y⌋ ≤ y - ⌊y⌋ := by linarith
    split_ifs <;> first | omega | (exfalso; linarith)

theorem log2_eq_of_binade (q : ℚ) (e : ℤ) (h1 : (2 : ℚ) ^ e ≤ q)
    (h2 : q < (2 : ℚ) ^ (e + 1)) : Int.log 2 q = e := by
  have hq : 0 < q := lt_of_lt_of_le (by positivity) h1
  have h1' : ((2 : ℕ) : ℚ) ^ e ≤ q := by simpa using h1
  have h2' : q < ((2 : ℕ) : ℚ) ^ (e + 1) := by simpa using h2
  have a := (Int.zpow_le_iff_le_log (by norm_num : 1 < 2) hq).mp h1'
  have b := (Int.lt_zpow_iff_log_lt (by norm_num : 1 < 2) hq).mp h2'
  omega

theorem f32Exp_eq_of_binade (q : ℚ) (e : ℤ) (he : -126 ≤ e) (h1 : (2 : ℚ) ^ e ≤ q)
    (h2 : q < (2 : ℚ) ^ (e + 1)) : f32Exp q = e := by
  unfold f32Exp
  rw [log2_eq_of_binade q e h1 h2]
  exact max_eq_left he

theorem roundF32_pos_eval (q : ℚ) (e z : ℤ) (he : -126 ≤ e) (h1 : (2 : ℚ) ^ e ≤ q)
    (h2 : q < (2 : ℚ) ^ (e + 1)) (hz : |q / (2 : ℚ) ^ (e - 23) - z| < 1 / 2) :
    roundF32 q = z * (2 : ℚ) ^ (e - 23) := by
  have hq : 0 < q := lt_of_lt_of_le (by positivity) h1
  have hl := f32Exp_eq_of_binade q e he h1 h2
  simp only [roundF32, ne_of_gt hq, if_false, hq, if_true, roundF32Pos, hl,
    roundNE_eq_of_near _ z hz]

theorem roundF32_neg (q : ℚ) : roundF32 (-q) = -roundF32 q := by
  unfold roundF32
  rcases lt_trichotomy q 0 with h | h | h
  · have h1 : ¬ (-q = 0) := by intro hc; linarith [neg_eq_zero.mp hc]
    have h2 : 0 < -q := by linarith
    have h3 : ¬ q = 0 := ne_of_lt h
    have h4 : ¬ 0 < q := by linarith
    simp [h1, h2, h3, h4]
  · simp [h]
  · have h1 : ¬ (-q = 0) := by intro hc; linarith [neg_eq_zero.mp hc]
    have h2 : ¬ 0 < -q := by linarith
    have h3 : ¬ q = 0 := ne_of_gt h
    simp [h1, h2, h3, h]

theorem roundF32_zero : roundF32 0 = 0 := by simp [roundF32]

/-- Evaluation of `roundF32` at a positive rational: `e` is its binade and `z` the
nearest multiple of the spacing `2^(e-23)`. -/
theorem roundF32_eq_of (q r : ℚ) (e z : ℤ) (he : -126 ≤ e) (h1 : (2 : ℚ) ^ e ≤ q)
    (h2 : q < (2 : ℚ) ^ (e + 1)) (hz : |q / (2 : ℚ) ^ (e - 23) - z| < 1 / 2)
    (hr : r = z * (2 : ℚ) ^ (e - 23)) : roundF32 q = r := by
  rw [hr]
  exact roundF32_pos_eval q e z he h1 h2 hz

/-- Evaluation of `roundF32` at a negative rational. -/
theorem roundF32_eq_of_neg (q r : ℚ) (e z : ℤ) (he : -126 ≤ e) (h1 : (2 : ℚ) ^ e ≤ -q)
    (h2 : -q < (2 : ℚ) ^ (e + 1)) (hz : |-q / (2 : ℚ) ^ (e - 23) - z| < 1 / 2)
    (hr : r = -(z * (2 : ℚ) ^ (e - 23))) : roundF32 q = r := by
  have h := roundF32_pos_eval (-q) e z he h1 h2 hz
  rw [roundF32_neg] at h
  rw [hr]
  linarith

theorem zpow_two_split (e : ℤ) (n : ℕ) :
    (2 : ℚ) ^ e = ((2 ^ n : ℤ) : ℚ) * (2 : ℚ) ^ (e - n) := by
  have h : (2 : ℚ) ^ e = (2 : ℚ) ^ ((n : ℤ) + (e - n)) := by ring_nf
  rw [h, zpow_add₀ (by norm_num : (2 : ℚ) ≠ 0)]
  push_cast
  simp [zpow_natCast]

theorem log2_le_f32Exp (q : ℚ) : Int.log 2 q ≤ f32Exp q := le_max_left _ _

/-- A rounded value does not leave the binade of its argument upwards. -/
theorem roundF32Pos_le (q : ℚ) : roundF32Pos q ≤ (2 : ℚ) ^ (f32Exp q + 1) := by
  have hu : (0 : ℚ) < (2 : ℚ) ^ (f32Exp q - 23) := by positivity
  have hhi : q < (2 : ℚ) ^ (Int.log 2 q + 1) := by
    simpa using Int.lt_zpow_succ_log_self (by norm_num : 1 < 2) q
  have hhi2 : q ≤ (2 : ℚ) ^ (f32Exp q + 1) :=
    le_trans (le_of_lt hhi)
      (zpow_le_zpow_right₀ (by norm_num) (by linarith [log2_le_f32Exp q]))
  have e2 : (2 : ℚ) ^ (f32Exp q + 1)
      = ((2 ^ 24 : ℤ) : ℚ) * (2 : ℚ) ^ (f32Exp q - 23) := by
    have h := zpow_two_split (f32Exp q + 1) 24
    have h2 : f32Exp q + 1 - ((24 : ℕ) : ℤ) = f32Exp q - 23 := by push_cast; ring
    rw [h2] at h
    exact h
  have h1 : q / (2 : ℚ) ^ (f32Exp q - 23) ≤ ((2 ^ 24 : ℤ) : ℚ) := by
    rw [div_le_iff₀ hu, ← e2]
    exact hhi2
  have h2 : roundNE (q / (2 : ℚ) ^ (f32Exp q - 23)) ≤ (2 ^ 24 : ℤ) := by
    have := roundNE_mono h1
    rwa [roundNE_intCast] at this
  rw [e2]
  unfold roundF32Pos
  exact mul_le_mul_of_nonneg_right (by exact_mod_cast h2) (le_of_lt hu)

/-- A rounded value does not leave a normal binade downwards. -/
theorem le_roundF32Pos (q : ℚ) (hq : 0 < q) (hn : -126 ≤ Int.log 2 q) :
    (2 : ℚ) ^ Int.log 2 q ≤ roundF32Pos q := by
  have hE : f32Exp q = Int.log 2 q := max_eq_left hn
  have hu : (0 : ℚ) < (2 : ℚ) ^ (Int.log 2 q - 23) := by positivity
  have hlo : (2 : ℚ) ^ Int.log 2 q ≤ q := by
    simpa using Int.zpow_log_le_self (by norm_num : 1 < 2) hq
  have e1 : (2 : ℚ) ^ Int.log 2 q
      = ((2 ^ 23 : ℤ) : ℚ) * (2 : ℚ) ^ (Int.log 2 q - 23) := by
    have h := zpow_two_split (Int.log 2 q) 23
    have h2 : Int.log 2 q - ((23 : ℕ) : ℤ) = Int.log 2 q - 23 := by push_cast; ring
    rw [h2] at h
    exact h
  have h1 : ((2 ^ 23 : ℤ) : ℚ) ≤ q / (2 : ℚ) ^ (Int.log 2 q - 23) := by
    rw [le_div_iff₀ hu, ← e1]
    exact hlo
  have h2 : (2 ^ 23 : ℤ) ≤ roundNE (q / (2 : ℚ) ^ (Int.log 2 q - 23)) := by
    have := roundNE_mono h1
    rwa [roundNE_intCast] at this
  unfold roundF32Pos
  rw [hE]
  nth_rewrite 1 [e1]
  exact mul_le_mul_of_nonneg_right (by exact_mod_cast h2) (le_of_lt hu)

theorem roundF32Pos_nonneg (q : ℚ) (hq : 0 < q) : 0 ≤ roundF32Pos q := by
  unfold roundF32Pos
  have hu : (0 : ℚ) < (2 : ℚ) ^ (f32Exp q - 23) := by positivity
  have h := roundNE_nonneg (q / (2 : ℚ) ^ (f32Exp q - 23)) (le_of_lt (div_pos hq hu))
  exact mul_nonneg (by exact_mod_cast h) (le_of_lt hu)

theorem roundF32Pos_mono {a b : ℚ} (ha : 0 < a) (hab : a ≤ b) :
    roundF32Pos a ≤ roundF32Pos b := by
  have hb : 0 < b := lt_of_lt_of_le ha hab
  have hlog : Int.log 2 a ≤ Int.log 2 b := Int.log_mono_right ha hab
  have hE : f32Exp a ≤ f32Exp b := max_le_max hlog le_rfl
  rcases lt_or_eq_of_le hE with hlt | heq
  · have hn : -126 ≤ Int.log 2 b := by
      by_contra hc
      have h1 : f32Exp b = -126 := max_eq_right (by omega)
      have h2 : -126 ≤ f32Exp a := le_max_right _ _
      omega
    have hEb : f32Exp b = Int.log 2 b := max_eq_left hn
    calc roundF32Pos a ≤ (2 : ℚ) ^ (f32Exp a + 1) := roundF32Pos_le a
      _ ≤ (2 : ℚ) ^ Int.log 2 b := zpow_le_zpow_right₀ (by norm_num) (by omega)
      _ ≤ roundF32Pos b := le_roundF32Pos b hb hn
  · unfold roundF32Pos
    rw [heq]
    have hu : (0 : ℚ) < (2 : ℚ) ^ (f32Exp b - 23) := by positivity
    have h1 : a / (2 : ℚ) ^ (f32Exp b - 23) ≤ b / (2 : ℚ) ^ (f32Exp b - 23) :=
      div_le_div_of_nonneg_right hab (le_of_lt hu)
    have h2 := roundNE_mono h1
    exact mul_le_mul_of_nonneg_right (by exact_mod_cast h2) (le_of_lt hu)

/-- Rounding to the `float32` grid is monotone. -/
theorem roundF32_mono {a b : ℚ} (hab : a ≤ b) : roundF32 a ≤ roundF32 b := by
  unfold roundF32
  rcases lt_trichotomy a 0 with ha | ha | ha
  · have ha0 : ¬ a = 0 := ne_of_lt ha
    have ha1 : ¬ 0 < a := by linarith
    rcases lt_trichotomy b 0 with hb | hb | hb
    · have hb0 : ¬ b = 0 := ne_of_lt hb
      have hb1 : ¬ 0 < b := by linarith
      simp only [ha0, ha1, hb0, hb1, if_false]
      have := roundF32Pos_mono (by linarith : 0 < -b) (by linarith : -b ≤ -a)
      linarith
    · simp only [ha0, ha1, hb, if_false, if_true]
      have := roundF32Pos_nonneg (-a) (by linarith)
      linarith
    · have hb0 : ¬ b = 0 := ne_of_gt hb
      simp only [ha0, ha1, hb0, hb, if_false, if_true]
      have h1 := roundF32Pos_nonneg (-a) (by linarith)
      have h2 := roundF32Pos_nonneg b hb
      linarith
  · have hb : 0 ≤ b := by linarith
    rcases lt_or_eq_of_le hb with hb | hb
    · have hb0 : ¬ b = 0 := ne_of_gt hb
      simp only [ha, hb0, hb, if_false, if_true]
      exact roundF32Pos_nonneg b hb
    · simp [ha, ← hb]
  · have hb : 0 < b := lt_of_lt_of_le ha hab
    have ha0 : ¬ a = 0 := ne_of_gt ha
    have hb0 : ¬ b = 0 := ne_of_gt hb
    simp only [ha0, hb0, ha, hb, if_false, if_true]
    exact roundF32Pos_mono ha hab

theorem roundF32_fifth : roundF32 0.2 = 13421773 / 67108864 :=
  roundF32_eq_of _ _ (-3) 13421773 (by norm_num) (by norm_num) (by norm_num)
    (by norm_num [abs_lt]) (by norm_num)

/-- No point of the `float32` grid lies between 0.2 and the rounded 0.2: a rounded
value is below the one exactly when it is below the other. -/
theorem roundF32_lt_fifth_iff (x : ℚ) : roundF32 x < roundF32 0.2 ↔ roundF32 x < 0.2 := by
  rw [roundF32_fifth]
  constructor
  · intro h
    by_contra hc
    have hp : (0.2 : ℚ) ≤ roundF32 x := not_lt.mp hc
    have hx : 0 < x := by
      by_contra hx0
      have h0 := roundF32_mono (not_lt.mp hx0)
      rw [roundF32_zero] at h0
      norm_num at hp
      linarith
    have hpos : roundF32 x = roundF32Pos x := by
      simp [roundF32, ne_of_gt hx, hx]
    rw [hpos] at h hp
    have hb2 := roundF32Pos_le x
    have hE2 : -3 < f32Exp x + 1 := by
      have h3 : (2 : ℚ) ^ (-3 : ℤ) < (2 : ℚ) ^ (f32Exp x + 1) := by
        refine lt_of_lt_of_le ?_ (le_trans hp hb2)
        norm_num
      exact (zpow_lt_zpow_iff_right₀ (by norm_num : (1 : ℚ) < 2)).mp h3
    have hEL : f32Exp x = Int.log 2 x := by
      unfold f32Exp at hE2 ⊢
      apply max_eq_left
      by_contra hc2
      have h4 : max (Int.log 2 x) (-126) = -126 := max_eq_right (by omega)
      omega
    have hn : -126 ≤ Int.log 2 x := by omega
    have hb1 := le_roundF32Pos x hx hn
    have hL1 : Int.log 2 x < -2 := by
      have h3 : (2 : ℚ) ^ Int.log 2 x < (2 : ℚ) ^ (-2 : ℤ) := by
        refine lt_of_le_of_lt hb1 (lt_trans h ?_)
        norm_num
      exact (zpow_lt_zpow_iff_right₀ (by norm_num : (1 : ℚ) < 2)).mp h3
    have hL : f32Exp x = -3 := by omega
    unfold roundF32Pos at h hp
    rw [hL] at h hp
    generalize roundNE (x / (2 : ℚ) ^ ((-3 : ℤ) - 23)) = n at h hp
    norm_num at h hp
    have h5 : (n : ℚ) < 13421773 := by linarith
    have h6 : (13421772 : ℚ) < (n : ℚ) := by linarith
    have h7 : n < 13421773 := by exact_mod_cast h5
    have h8 : 13421772 < n := by exact_mod_cast h6
    omega
  · intro h
    refine lt_trans h ?_
    norm_num

/-! ## Rescaling a terminal by the mouse wheel -/

theorem F32.ofRat_fin (q r : ℚ) (hr : roundF32 q = r) (h1 : -(2 : ℚ) ^ 128 < r)
    (h2 : r < (2 : ℚ) ^ 128) : F32.ofRat q = .fin r := by
  unfold F32.ofRat
  rw [hr, if_neg (not_le.mpr h2), if_neg (not_le.mpr h1)]

theorem F32.round_ne_nan (y : F32) (hy : y ≠ .nan) : F32.round y ≠ .nan := by
  cases y with
  | nan => exact absurd rfl hy
  | negInf => simp [F32.round]
  | posInf => simp [F32.round]
  | fin q =>
    simp only [F32.round, F32.ofRat]
    split_ifs <;> simp

theorem fadd_fin (a b : ℚ) : fadd (.fin a) (.fin b) = F32.ofRat (a + b) := rfl

theorem fsub_fin (a b : ℚ) : fsub (.fin a) (.fin b) = F32.ofRat (a - b) := by
  simp only [fsub, F32.sub, F32.neg, F32.add, F32.round, sub_eq_add_neg]

theorem fmul_fin (a b : ℚ) : fmul (.fin a) (.fin b) = F32.ofRat (a * b) := rfl

theorem fdiv_fin (a b : ℚ) (hb : b ≠ 0) : fdiv (.fin a) (.fin b) = F32.ofRat (a / b) := by
  simp only [fdiv, F32.div, hb, if_false, F32.round]

theorem F32.ofRat_fifth : F32.ofRat 0.2 = .fin (13421773 / 67108864) :=
  F32.ofRat_fin _ _ roundF32_fifth (by norm_num) (by norm_num)

/-- A `float32` is below the constant of the guard, the `float32` nearest to 0.2,
exactly when it is below 0.2. -/
theorem F32.round_lt_fifth (x : F32) :
    F32.lt (F32.round x) (F32.ofRat 0.2) = F32.lt (F32.round x) (.fin 0.2) := by
  rw [F32.ofRat_fifth]
  cases x with
  | nan => rfl
  | negInf => rfl
  | posInf => rfl
  | fin q =>
    simp only [F32.round, F32.ofRat]
    split_ifs
    · rfl
    · rfl
    · simp only [F32.lt]
      have h := roundF32_lt_fifth_iff q
      rw [roundF32_fifth] at h
      exact decide_eq_decide.mpr h

theorem Clamp_unit (v : F32) (hv : v ≠ .nan) :
    ∃ c : ℚ, Clamp v (.fin (-1)) (.fin 1) = .fin c ∧ -1 ≤ c ∧ c ≤ 1 := by
  cases v with
  | nan => exact absurd rfl hv
  | negInf => exact ⟨-1, by simp [Clamp, F32.lt], le_refl _, by norm_num⟩
  | posInf => exact ⟨1, by simp [Clamp, F32.lt], by norm_num, le_refl _⟩
  | fin q =>
    by_cases h1 : q < -1
    · exact ⟨-1, by simp [Clamp, F32.lt, h1], le_refl _, by norm_num⟩
    · by_cases h2 : 1 < q
      · exact ⟨1, by simp [Clamp, F32.lt, h1, h2], by norm_num, le_refl _⟩
      · exact ⟨q, by simp [Clamp, F32.lt, h1, h2], not_lt.mp h1, not_lt.mp h2⟩

theorem roundF32_tenth : roundF32 (1 / 10) = 13421773 / 134217728 :=
  roundF32_eq_of _ _ (-4) 13421773 (by norm_num) (by norm_num) (by norm_num)
    (by norm_num [abs_lt]) (by norm_num)

/-- The factor of the rescale is a number between the `float32` values next to 0.9
and 1.1, whatever the scroll delta, NaN apart. -/
theorem changeFactorOf_bounds (y : F32) (hy : y ≠ .nan) :
    ∃ f : ℚ, changeFactorOf y = .fin f ∧
      7549747 / 8388608 ≤ f ∧ f ≤ 9227469 / 8388608 := by
  obtain ⟨c, hc, hc1, hc2⟩ := Clamp_unit (F32.round y) (F32.round_ne_nan y hy)
  have hneg : roundF32 (-(1 / 10)) = -(13421773 / 134217728) := by
    rw [roundF32_neg, roundF32_tenth]
  have hd1 : -(13421773 / 134217728) ≤ roundF32 (c / 10) := by
    rw [← hneg]
    exact roundF32_mono (by linarith)
  have hd2 : roundF32 (c / 10) ≤ 13421773 / 134217728 := by
    rw [← roundF32_tenth]
    exact roundF32_mono (by linarith)
  have hdiv : fdiv (.fin c) (.fin 10) = .fin (roundF32 (c / 10)) := by
    rw [fdiv_fin c 10 (by norm_num)]
    exact F32.ofRat_fin _ _ rfl (by linarith [show -(2 : ℚ) ^ 128 < -1 by norm_num])
      (by linarith [show (1 : ℚ) < (2 : ℚ) ^ 128 by norm_num])
  have hlo : roundF32 (1 + -(13421773 / 134217728)) = 7549747 / 8388608 :=
    roundF32_eq_of _ _ (-1) 15099494 (by norm_num) (by norm_num) (by norm_num)
      (by norm_num [abs_lt]) (by norm_num)
  have hhi : roundF32 (1 + 13421773 / 134217728) = 9227469 / 8388608 :=
    roundF32_eq_of _ _ 0 9227469 (by norm_num) (by norm_num) (by norm_num)
      (by norm_num [abs_lt]) (by norm_num)
  have hf1 : 7549747 / 8388608 ≤ roundF32 (1 + roundF32 (c / 10)) := by
    rw [← hlo]
    exact roundF32_mono (by linarith)
  have hf2 : roundF32 (1 + roundF32 (c / 10)) ≤ 9227469 / 8388608 := by
    rw [← hhi]
    exact roundF32_mono (by linarith)
  refine ⟨roundF32 (1 + roundF32 (c / 10)), ?_, hf1, hf2⟩
  unfold changeFactorOf
  rw [hc, hdiv, fadd_fin]
  exact F32.ofRat_fin _ _ rfl (by linarith [show -(2 : ℚ) ^ 128 < 0 by norm_num])
    (by linarith [show (2 : ℚ) < (2 : ℚ) ^ 128 by norm_num])

theorem changeFactorOf_neg_one : changeFactorOf (.fin (-1)) = .fin (7549747 / 8388608) := by
  have h1 : F32.round (.fin (-1)) = .fin (-1) :=
    F32.ofRat_fin _ _
      (roundF32_eq_of_neg _ _ 0 8388608 (by norm_num) (by norm_num) (by norm_num)
        (by norm_num [abs_lt]) (by norm_num))
      (by norm_num) (by norm_num)
  have h2 : Clamp (.fin (-1)) (.fin (-1)) (.fin 1) = .fin (-1) := by
    simp [Clamp, F32.lt]
  have h3 : fdiv (.fin (-1)) (.fin 10) = .fin (-(13421773 / 134217728)) := by
    rw [fdiv_fin _ _ (by norm_num)]
    exact F32.ofRat_fin _ _
      (roundF32_eq_of_neg _ _ (-4) 13421773 (by norm_num) (by norm_num) (by norm_num)
        (by norm_num [abs_lt]) (by norm_num))
      (by norm_num) (by norm_num)
  have h4 : fadd (.fin 1) (.fin (-(13421773 / 134217728))) = .fin (7549747 / 8388608) := by
    rw [fadd_fin]
    exact F32.ofRat_fin _ _
      (roundF32_eq_of _ _ (-1) 15099494 (by norm_num) (by norm_num) (by norm_num)
        (by norm_num [abs_lt]) (by norm_num))
      (by norm_num) (by norm_num)
  unfold changeFactorOf
  rw [h1, h2, h3, h4]

theorem changeFactorOf_scroll :
    changeFactorOf (.fin (-13 / 16)) = .fin (15414067 / 16777216) := by
  have h1 : F32.round (.fin (-13 / 16)) = .fin (-13 / 16) :=
    F32.ofRat_fin _ _
      (roundF32_eq_of_neg _ _ (-1) 13631488 (by norm_num) (by norm_num) (by norm_num)
        (by norm_num [abs_lt]) (by norm_num))
      (by norm_num) (by norm_num)
  have h2 : Clamp (.fin (-13 / 16)) (.fin (-1)) (.fin 1) = .fin (-13 / 16) := by
    norm_num [Clamp, F32.lt]
  have h3 : fdiv (.fin (-13 / 16)) (.fin 10) = .fin (-(10905190 / 134217728)) := by
    rw [fdiv_fin _ _ (by norm_num)]
    exact F32.ofRat_fin _ _
      (roundF32_eq_of_neg _ _ (-4) 10905190 (by norm_num) (by norm_num) (by norm_num)
        (by norm_num [abs_lt]) (by norm_num))
      (by norm_num) (by norm_num)
  have h4 : fadd (.fin 1) (.fin (-(10905190 / 134217728)))
      = .fin (15414067 / 16777216) := by
    rw [fadd_fin]
    exact F32.ofRat_fin _ _
      (roundF32_eq_of _ _ (-1) 15414067 (by norm_num) (by norm_num) (by norm_num)
        (by norm_num [abs_lt]) (by norm_num))
      (by norm_num) (by norm_num)
  unfold changeFactorOf
  rw [h1, h2, h3, h4]

theorem offsetTerminal_width : offsetTerminal.Bounds.Width = .fin (7 / 32) := by
  show fsub (.fin (8388615 / 32)) (.fin 262144) = .fin (7 / 32)
  rw [fsub_fin]
  exact F32.ofRat_fin _ _
    (roundF32_eq_of _ _ (-3) 14680064 (by norm_num) (by norm_num) (by norm_num)
      (by norm_num [abs_lt]) (by norm_num))
    (by norm_num) (by norm_num)

theorem offsetTerminal_height : offsetTerminal.Bounds.Height = .fin 1 := by
  show fsub (.fin 1) (.fin 0) = .fin 1
  rw [fsub_fin]
  exact F32.ofRat_fin _ _
    (roundF32_eq_of _ _ 0 8388608 (by norm_num) (by norm_num) (by norm_num)
      (by norm_num [abs_lt]) (by norm_num))
    (by norm_num) (by norm_num)

/-- With the modifier held, `Terminal.onMouseScroll` is its guard on the two
rounded products followed by the four assignments. -/
theorem onMouseScroll_held {ρ : Type} (t : Terminal ρ) (m : MessageMouseScroll)
    (hc : m.HoldingControl = true) :
    Terminal.onMouseScroll t m =
      if (F32.lt (fmul t.Bounds.Width (changeFactorOf m.Y)) (F32.ofRat 0.2) ||
          F32.lt (fmul t.Bounds.Height (changeFactorOf m.Y)) (F32.ofRat 0.2)) = true then
        .ok t
      else
        .ok { t with
          Bounds := { t.Bounds with
            Right := fadd t.Bounds.Left (fmul t.Bounds.Width (changeFactorOf m.Y))
            Bottom := fsub t.Bounds.Top (fmul t.Bounds.Height (changeFactorOf m.Y)) }
          CharSize := { X := fmul t.CharSize.X (changeFactorOf m.Y),
                        Y := fmul t.CharSize.Y (changeFactorOf m.Y) } } := by
  simp only [Terminal.onMouseScroll, hc, if_true, changeFactorOf]

/-- The guard of `Terminal.onMouseScroll` fires exactly when one of the rounded
products is below 0.2. -/
theorem onMouseScroll_guard (w h f : F32) :
    (F32.lt (fmul w f) (F32.ofRat 0.2) || F32.lt (fmul h f) (F32.ofRat 0.2)) = true ↔
      (F32.lt (fmul w f) (.fin 0.2) = true ∨ F32.lt (fmul h f) (.fin 0.2) = true) := by
  rw [Bool.or_eq_true]
  have h1 : F32.lt (fmul w f) (F32.ofRat 0.2) = F32.lt (fmul w f) (.fin 0.2) :=
    F32.round_lt_fifth (F32.mul w f)
  have h2 : F32.lt (fmul h f) (F32.ofRat 0.2) = F32.lt (fmul h f) (.fin 0.2) :=
    F32.round_lt_fifth (F32.mul h f)
  rw [h1, h2]

theorem offsetTerminal_newWidth :
    fmul offsetTerminal.Bounds.Width (changeFactorOf (.fin (-13 / 16)))
      = .fin (13487309 / 67108864) := by
  rw [offsetTerminal_width, changeFactorOf_scroll, fmul_fin]
  exact F32.ofRat_fin _ _
    (roundF32_eq_of _ _ (-3) 13487309 (by norm_num) (by norm_num) (by norm_num)
      (by norm_num [abs_lt]) (by norm_num))
    (by norm_num) (by norm_num)

theorem offsetTerminal_newHeight :
    fmul offsetTerminal.Bounds.Height (changeFactorOf (.fin (-13 / 16)))
      = .fin (15414067 / 16777216) := by
  rw [offsetTerminal_height, changeFactorOf_scroll, fmul_fin]
  exact F32.ofRat_fin _ _
    (roundF32_eq_of _ _ (-1) 15414067 (by norm_num) (by norm_num) (by norm_num)
      (by norm_num [abs_lt]) (by norm_num))
    (by norm_num) (by norm_num)

/-- The rescale of `offsetTerminal` by the scroll delta -0.8125 is accepted: the
products are 0.20097651 and 0.91875 and the right edge becomes 262144.1875. -/
theorem onMouseScroll_offsetTerminal :
    Terminal.onMouseScroll offsetTerminal ⟨.fin 0, .fin (-13 / 16), true⟩ =
      .ok { offsetTerminal with
        Bounds := ⟨.fin 1, .fin (4194307 / 16), .fin (1363149 / 16777216), .fin 262144⟩
        CharSize := ⟨.fin (15414067 / 134217728), .fin (15414067 / 67108864)⟩ } := by
  have hr : fadd offsetTerminal.Bounds.Left (.fin (13487309 / 67108864))
      = .fin (4194307 / 16) := by
    show fadd (.fin 262144) (.fin (13487309 / 67108864)) = .fin (4194307 / 16)
    rw [fadd_fin]
    exact F32.ofRat_fin _ _
      (roundF32_eq_of _ _ 18 8388614 (by norm_num) (by norm_num) (by norm_num)
        (by norm_num [abs_lt]) (by norm_num))
      (by norm_num) (by norm_num)
  have hb : fsub offsetTerminal.Bounds.Top (.fin (15414067 / 16777216))
      = .fin (1363149 / 16777216) := by
    show fsub (.fin 1) (.fin (15414067 / 16777216)) = .fin (1363149 / 16777216)
    rw [fsub_fin]
    exact F32.ofRat_fin _ _
      (roundF32_eq_of _ _ (-4) 10905192 (by norm_num) (by norm_num) (by norm_num)
        (by norm_num [abs_lt]) (by norm_num))
      (by norm_num) (by norm_num)
  have hx : fmul offsetTerminal.CharSize.X (changeFactorOf (.fin (-13 / 16)))
      = .fin (15414067 / 134217728) := by
    rw [changeFactorOf_scroll]
    show fmul (.fin (1 / 8)) (.fin (15414067 / 16777216)) = .fin (15414067 / 134217728)
    rw [fmul_fin]
    exact F32.ofRat_fin _ _
      (roundF32_eq_of _ _ (-4) 15414067 (by norm_num) (by norm_num) (by norm_num)
        (by norm_num [abs_lt]) (by norm_num))
      (by norm_num) (by norm_num)
  have hy : fmul offsetTerminal.CharSize.Y (changeFactorOf (.fin (-13 / 16)))
      = .fin (15414067 / 67108864) := by
    rw [changeFactorOf_scroll]
    show fmul (.fin (1 / 4)) (.fin (15414067 / 16777216)) = .fin (15414067 / 67108864)
    rw [fmul_fin]
    exact F32.ofRat_fin _ _
      (roundF32_eq_of _ _ (-3) 15414067 (by norm_num) (by norm_num) (by norm_num)
        (by norm_num [abs_lt]) (by norm_num))
      (by norm_num) (by norm_num)
  have hg : ¬ ((F32.lt (fmul offsetTerminal.Bounds.Width (changeFactorOf (.fin (-13 / 16))))
        (F32.ofRat 0.2) ||
      F32.lt (fmul offsetTerminal.Bounds.Height (changeFactorOf (.fin (-13 / 16))))
        (F32.ofRat 0.2)) = true) := by
    rw [offsetTerminal_newWidth, offsetTerminal_newHeight, F32.ofRat_fifth]
    norm_num [F32.lt]
  rw [onMouseScroll_held offsetTerminal ⟨.fin 0, .fin (-13 / 16), true⟩ rfl]
  simp only []
  rw [if_neg hg, offsetTerminal_newWidth, offsetTerminal_newHeight, hr, hb, hx, hy]
  rfl

theorem fsub_scrolled_edges : fsub (.fin (4194307 / 16)) (.fin 262144) = .fin (3 / 16) := by
  rw [fsub_fin]
  exact F32.ofRat_fin _ _
    (roundF32_eq_of _ _ (-3) 12582912 (by norm_num) (by norm_num) (by norm_num)
      (by norm_num [abs_lt]) (by norm_num))
    (by norm_num) (by norm_num)

/-- C13: for every terminal and every MouseScroll message with `HoldingControl`
set, if the rescaled width `Bounds.Width() * f` or the rescaled height
`Bounds.Height() * f`, as the code computes them in `float32`, is below 0.2, where
`f = 1 + Clamp(Y, -1, 1) / 10`, then `onMouseScroll` completes normally and leaves
the terminal, and so `Bounds` (Left, Right, Top, Bottom) and `CharSize`, exactly
unchanged. -/
theorem onMouseScroll_below_floor_unchanged {ρ : Type} (t : Terminal ρ)
    (m : MessageMouseScroll) (hc : m.HoldingControl = true)
    (h : F32.lt (fmul t.Bounds.Width (changeFactorOf m.Y)) (.fin 0.2) = true ∨
         F32.lt (fmul t.Bounds.Height (changeFactorOf m.Y)) (.fin 0.2) = true) :
    Terminal.onMouseScroll t m = .ok t := by
  rw [onMouseScroll_held t m hc, if_pos]
  exact (onMouseScroll_guard _ _ _).mpr h

/-- Witness of `onMouseScroll_below_floor_unchanged`: a terminal 0.21875 wide and a
scroll delta of -1 (factor 0.89999998, rescaled width 0.19687499). -/
theorem onMouseScroll_below_floor_witness :
    fmul offsetTerminal.Bounds.Width (changeFactorOf (.fin (-1)))
      = .fin (13212057 / 67108864) ∧
    Terminal.onMouseScroll offsetTerminal ⟨.fin 0, .fin (-1), true⟩ = .ok offsetTerminal :=
  have hw : fmul offsetTerminal.Bounds.Width (changeFactorOf (.fin (-1)))
      = .fin (13212057 / 67108864) := by
    rw [offsetTerminal_width, changeFactorOf_neg_one, fmul_fin]
    exact F32.ofRat_fin _ _
      (roundF32_eq_of _ _ (-3) 13212057 (by norm_num) (by norm_num) (by norm_num)
        (by norm_num [abs_lt]) (by norm_num))
      (by norm_num) (by norm_num)
  ⟨hw, onMouseScroll_below_floor_unchanged offsetTerminal ⟨.fin 0, .fin (-1), true⟩ rfl
    (Or.inl (by
      show F32.lt (fmul offsetTerminal.Bounds.Width (changeFactorOf (.fin (-1))))
        (.fin 0.2) = true
      rw [hw]
      norm_num [F32.lt]))⟩

/-- C14, as stated, fails in the `float32` arithmetic of the code: at the scroll
delta -1 the factor is 7549747/8388608 = 0.89999998, below 0.9; and on the
terminal with Left 262144 and Right 262144.21875 the delta -0.8125 is accepted
with factor 0.91875 and takes the width from 0.21875 to 0.1875, which is neither
the exact nor the rounded product of the factor and the old width, the right edge
262144.1875 not being Left plus the factor times the old width. -/
theorem onMouseScroll_factor_and_width_rounded :
    changeFactorOf (.fin (-1)) = .fin (7549747 / 8388608) ∧
    F32.lt (changeFactorOf (.fin (-1))) (.fin (9 / 10)) = true ∧
    changeFactorOf (.fin (-13 / 16)) = .fin (15414067 / 16777216) ∧
    offsetTerminal.Bounds.Width = .fin (7 / 32) ∧
    ∃ t1 : Terminal (List Nat),
      Terminal.onMouseScroll offsetTerminal ⟨.fin 0, .fin (-13 / 16), true⟩ = .ok t1 ∧
      t1.Bounds.Width = .fin (3 / 16) ∧
      t1.Bounds.Width ≠
        F32.mul (changeFactorOf (.fin (-13 / 16))) offsetTerminal.Bounds.Width ∧
      t1.Bounds.Width ≠
        fmul (changeFactorOf (.fin (-13 / 16))) offsetTerminal.Bounds.Width ∧
      t1.Bounds.Right = .fin (4194307 / 16) ∧
      t1.Bounds.Right ≠
        F32.add offsetTerminal.Bounds.Left
          (F32.mul (changeFactorOf (.fin (-13 / 16))) offsetTerminal.Bounds.Width) := by
  have hm : fmul (.fin (15414067 / 16777216)) (.fin (7 / 32))
      = .fin (13487309 / 67108864) := by
    rw [fmul_fin]
    exact F32.ofRat_fin _ _
      (roundF32_eq_of _ _ (-3) 13487309 (by norm_num) (by norm_num) (by norm_num)
        (by norm_num [abs_lt]) (by norm_num))
      (by norm_num) (by norm_num)
  refine ⟨changeFactorOf_neg_one, ?_, changeFactorOf_scroll, offsetTerminal_width,
    _, onMouseScroll_offsetTerminal, fsub_scrolled_edges, ?_, ?_, rfl, ?_⟩
  · rw [changeFactorOf_neg_one]
    norm_num [F32.lt]
  · rw [changeFactorOf_scroll, offsetTerminal_width]
    show fsub (.fin (4194307 / 16)) (.fin 262144) ≠ _
    rw [fsub_scrolled_edges]
    norm_num [F32.mul]
  · rw [changeFactorOf_scroll, offsetTerminal_width, hm]
    show fsub (.fin (4194307 / 16)) (.fin 262144) ≠ _
    rw [fsub_scrolled_edges]
    norm_num
  · rw [changeFactorOf_scroll, offsetTerminal_width]
    show F32.fin (4194307 / 16) ≠ F32.add (.fin 262144) _
    norm_num [F32.mul, F32.add]

/-- C14 (amended): for every scroll delta `Y` other than NaN the factor
`f = float32(1 + Clamp(float32(Y), -1, 1) / 10)` is a number between
7549747/8388608 and 9227469/8388608, the `float32` values next to 0.9 and 1.1; and
for every terminal and every MouseScroll message with `HoldingControl` set whose
rescale is accepted (neither rounded product `Bounds.Width() * f`,
`Bounds.Height() * f` is below 0.2), `onMouseScroll` completes normally with
`Bounds.Left` and `Bounds.Top` kept, `Right = float32(Left + float32(width * f))`,
`Bottom = float32(Top - float32(height * f))`, `CharSize.X` and `CharSize.Y` each
the rounded product with `f`, and the other fields kept. -/
theorem onMouseScroll_accepted_rescales_rounded {ρ : Type} (t : Terminal ρ)
    (m : MessageMouseScroll) (hc : m.HoldingControl = true)
    (hacc : ¬ (F32.lt (fmul t.Bounds.Width (changeFactorOf m.Y)) (.fin 0.2) = true ∨
               F32.lt (fmul t.Bounds.Height (changeFactorOf m.Y)) (.fin 0.2) = true)) :
    (∀ y : F32, y ≠ .nan → ∃ f : ℚ, changeFactorOf y = .fin f ∧
      7549747 / 8388608 ≤ f ∧ f ≤ 9227469 / 8388608) ∧
    ∃ t1 : Terminal ρ,
      Terminal.onMouseScroll t m = .ok t1 ∧
      t1.Bounds.Left = t.Bounds.Left ∧
      t1.Bounds.Top = t.Bounds.Top ∧
      t1.Bounds.Right = fadd t.Bounds.Left (fmul t.Bounds.Width (changeFactorOf m.Y)) ∧
      t1.Bounds.Bottom = fsub t.Bounds.Top (fmul t.Bounds.Height (changeFactorOf m.Y)) ∧
      t1.CharSize.X = fmul t.CharSize.X (changeFactorOf m.Y) ∧
      t1.CharSize.Y = fmul t.CharSize.Y (changeFactorOf m.Y) ∧
      t1.TerminalId = t.TerminalId ∧ t1.CurrFlowPos = t.CurrFlowPos ∧
      t1.others = t.others := by
  refine ⟨changeFactorOf_bounds, ?_⟩
  have hrun := onMouseScroll_held t m hc
  rw [if_neg (fun hg => hacc ((onMouseScroll_guard _ _ _).mp hg))] at hrun
  exact ⟨_, hrun, rfl, rfl, rfl, rfl, rfl, rfl, rfl, rfl, rfl⟩

/-- Witness of `onMouseScroll_accepted_rescales_rounded`: the terminal 0.21875 wide
and 1 high and the scroll delta -0.8125 (factor 0.91875, rounded products
0.20097651 and 0.91875): the right edge moves from 262144.21875 to the `float32`
sum of Left and the rounded product. -/
theorem onMouseScroll_accepted_witness :
    fmul offsetTerminal.Bounds.Width (changeFactorOf (.fin (-13 / 16)))
      = .fin (13487309 / 67108864) ∧
    fmul offsetTerminal.Bounds.Height (changeFactorOf (.fin (-13 / 16)))
      = .fin (15414067 / 16777216) ∧
    ∃ t1 : Terminal (List Nat),
      Terminal.onMouseScroll offsetTerminal ⟨.fin 0, .fin (-13 / 16), true⟩ = .ok t1 ∧
      t1.Bounds.Left = offsetTerminal.Bounds.Left ∧
      t1.Bounds.Right = fadd offsetTerminal.Bounds.Left
        (fmul offsetTerminal.Bounds.Width (changeFactorOf (.fin (-13 / 16)))) ∧
      t1.CharSize.X = fmul offsetTerminal.CharSize.X (changeFactorOf (.fin (-13 / 16))) :=
  ⟨offsetTerminal_newWidth, offsetTerminal_newHeight,
   (onMouseScroll_accepted_rescales_rounded offsetTerminal
      ⟨.fin 0, .fin (-13 / 16), true⟩ rfl
    (by
      show ¬ (F32.lt (fmul offsetTerminal.Bounds.Width (changeFactorOf (.fin (-13 / 16))))
          (.fin 0.2) = true ∨
        F32.lt (fmul offsetTerminal.Bounds.Height (changeFactorOf (.fin (-13 / 16))))
          (.fin 0.2) = true)
      rw [offsetTerminal_newWidth, offsetTerminal_newHeight]
      norm_num [F32.lt])).2.imp
    (fun _ h => ⟨h.1, h.2.1, h.2.2.2.1, h.2.2.2.2.2.1⟩)⟩

/-- C26: the size floor fails in the program. The terminal with Left 262144, Right
262144.21875, Top 1, Bottom 0 is 0.21875 wide and 1 high, both at least 0.2; the
MouseScroll message with the modifier held and the delta -0.8125 passes the guard
(the rounded product is 0.20097651) and stores Right 262144.1875, the `float32`
nearest to Left plus the product; the width afterwards is 0.1875, below 0.2. -/
theorem onMouseScroll_shrinks_below_floor :
    offsetTerminal.Bounds.Width = .fin (7 / 32) ∧
    offsetTerminal.Bounds.Height = .fin 1 ∧
    F32.le (.fin 0.2) offsetTerminal.Bounds.Width = true ∧
    F32.le (.fin 0.2) offsetTerminal.Bounds.Height = true ∧
    ∃ t1 : Terminal (List Nat),
      Terminal.onMouseScroll offsetTerminal ⟨.fin 0, .fin (-13 / 16), true⟩ = .ok t1 ∧
      t1.Bounds.Left = .fin 262144 ∧
      t1.Bounds.Right = .fin (4194307 / 16) ∧
      F32.sub t1.Bounds.Right t1.Bounds.Left = .fin (3 / 16) ∧
      t1.Bounds.Width = .fin (3 / 16) ∧
      F32.lt t1.Bounds.Width (.fin 0.2) = true := by
  refine ⟨offsetTerminal_width, offsetTerminal_height, ?_, ?_, _,
    onMouseScroll_offsetTerminal, rfl, rfl, ?_, fsub_scrolled_edges, ?_⟩
  · rw [offsetTerminal_width]
    norm_num [F32.le]
  · rw [offsetTerminal_height]
    norm_num [F32.le]
  · show F32.sub (.fin (4194307 / 16)) (.fin 262144) = .fin (3 / 16)
    norm_num [F32.sub, F32.add, F32.neg]
  · show F32.lt (fsub (.fin (4194307 / 16)) (.fin 262144)) (.fin 0.2) = true
    rw [fsub_scrolled_edges]
    norm_num [F32.lt]

/-! ## Scroll bar -/

theorem F32.clamp_in_range (v len : F32) (hv : v ≠ F32.nan)
    (hlen : F32.le (F32.fin 0) len = true) :
    F32.le (F32.neg len)
        (if F32.lt (if F32.lt (F32.fin 0) v then F32.fin 0 else v) (F32.neg len)
          then F32.neg len else (if F32.lt (F32.fin 0) v then F32.fin 0 else v)) = true ∧
    F32.le (if F32.lt (if F32.lt (F32.fin 0) v then F32.fin 0 else v) (F32.neg len)
          then F32.neg len else (if F32.lt (F32.fin 0) v then F32.fin 0 else v))
        (F32.fin 0) = true := by
  cases len with
  | nan => simp [F32.le] at hlen
  | negInf => simp [F32.le] at hlen
  | posInf =>
    cases v with
    | nan => exact absurd rfl hv
    | negInf => simp [F32.lt, F32.le, F32.neg]
    | posInf => simp [F32.lt, F32.le, F32.neg]
    | fin q =>
      by_cases hq : (0 : ℚ) < q
      · simp [F32.lt, F32.le, F32.neg, hq]
      · simp [F32.lt, F32.le, F32.neg, hq, not_lt.mp hq]
  | fin l =>
    have hl : (0 : ℚ) ≤ l := by simpa [F32.le] using hlen
    cases v with
    | nan => exact absurd rfl hv
    | negInf => simp [F32.lt, F32.le, F32.neg, hl]
    | posInf =>
      have h1 : ¬ (0 : ℚ) < -l := by linarith
      simp [F32.lt, F32.le, F32.neg, hl, h1]
    | fin q =>
      by_cases hq : (0 : ℚ) < q
      · have h1 : ¬ (0 : ℚ) < -l := by linarith
        simp [F32.lt, F32.le, F32.neg, hq, hl, h1]
      · by_cases h2 : q < -l
        · simp [F32.lt, F32.le, F32.neg, hq, h2, hl]
        · simp [F32.lt, F32.le, F32.neg, hq, h2, not_lt.mp hq, not_lt.mp h2]

theorem Scroll_offset_clamped (pixelHei : F32) (bar : ScrollBar) (tp : Main.TextPanel)
    (delta : F32) (hlen : F32.le (F32.fin 0) tp.LenOfOffscreenY = true)
    (hv : fsub tp.OffsetY
        (fmul (fdiv (fmul (F32.round delta) pixelHei) bar.LenOfVoid) tp.LenOfOffscreenY)
        ≠ F32.nan) :
    ∃ (bar1 : ScrollBar) (tp1 : Main.TextPanel),
      ScrollBar.Scroll pixelHei bar tp delta = .ok (bar1, tp1) ∧
      tp1.LenOfOffscreenY = tp.LenOfOffscreenY ∧
      F32.le (F32.neg tp.LenOfOffscreenY) tp1.OffsetY = true ∧
      F32.le tp1.OffsetY (F32.fin 0) = true := by
  have hc := F32.clamp_in_range _ _ hv hlen
  refine ⟨_, _, rfl, ?_, ?_, ?_⟩
  · simp only []
    split_ifs <;> rfl
  · simp only []
    split_ifs at hc ⊢ <;> simp_all
  · simp only []
    split_ifs at hc ⊢ <;> simp_all

/-- C15 at a failing input: on a scroll bar in its zero value (`LenOfVoid` is 0)
and a mouse delta of 0, `ScrollBar.Scroll` computes `0 / 0 * LenOfOffscreenY`,
the offset becomes NaN and passes both comparisons of the clamp unchanged, so
neither `-LenOfOffscreenY <= OffsetY` nor `OffsetY <= 0` holds afterwards, with
`LenOfOffscreenY = 5 >= 0`. -/
theorem Scroll_zero_bar_offset_nan :
    ScrollBar.Scroll (F32.fin 1) zeroScrollBar sampleScrollPanel (F32.fin 0) = .ok
      (zeroScrollBar, { sampleScrollPanel with OffsetY := F32.nan }) ∧
    F32.le (F32.fin 0) sampleScrollPanel.LenOfOffscreenY = true ∧
    F32.le (F32.neg sampleScrollPanel.LenOfOffscreenY) F32.nan = false ∧
    F32.le F32.nan (F32.fin 0) = false := by
  have h0 : F32.ofRat 0 = .fin 0 :=
    F32.ofRat_fin _ _ roundF32_zero (by norm_num) (by norm_num)
  have hy : fmul (F32.round (.fin 0)) (.fin 1) = .fin 0 := by
    show fmul (F32.ofRat 0) (.fin 1) = .fin 0
    rw [h0, fmul_fin, mul_one, h0]
  have hp : fsub (.fin 0) (.fin 0) = .fin 0 := by
    rw [fsub_fin, sub_zero, h0]
  have hb : fadd (.fin (-1)) (.fin 0) = .fin (-1) := by
    rw [fadd_fin, add_zero]
    exact F32.ofRat_fin _ _
      (roundF32_eq_of_neg _ _ 0 8388608 (by norm_num) (by norm_num) (by norm_num)
        (by norm_num [abs_lt]) (by norm_num))
      (by norm_num) (by norm_num)
  have hd : fdiv (.fin 0) (.fin 0) = .nan := by
    simp [fdiv, F32.div, F32.round]
  have hm : fmul .nan (.fin 5) = .nan := rfl
  have hs : fsub (.fin 0) .nan = .nan := rfl
  refine ⟨?_, ?_, rfl, rfl⟩
  · unfold ScrollBar.Scroll
    rw [show zeroScrollBar = ⟨.fin 0, .fin 0, .fin 0, .fin 0⟩ from rfl,
      show sampleScrollPanel = ⟨.fin 1, .fin (-1), .fin 0, .fin 5⟩ from rfl]
    dsimp only
    simp only [hy, hp, hb]
    norm_num [F32.lt, F32.neg, hd, hm, hs]
  · norm_num [sampleScrollPanel, F32.le]

/-! ## Tick of the task registry -/

/-- C16 at a failing input: `TickExtTasks` has an empty body, so on a registry
holding a task with one response pending on its inbound channel it reads nothing:
the response is still pending afterwards, where one non-blocking read per
registered task takes it off the channel. On every registry `TickExtTasks`
completes normally and returns the registry as it was. -/
theorem TickExtTasks_reads_nothing :
    TickExtTasks pendingRegistry = .ok pendingRegistry ∧
    mapIndex pendingRegistry.TaskMap 7 = some ⟨7, [42], false⟩ ∧
    mapIndex (specTick pendingRegistry).TaskMap 7 = some ⟨7, [], false⟩ ∧
    ∀ g : ExtTaskList ChanTask, TickExtTasks g = .ok g :=
  ⟨rfl, rfl, rfl, fun _ => rfl⟩

/-! ## RPC wrappers -/

/-- C17: for each of `GetTerminalIDs`, `GetTermIDsWithProcessIDs`,
`GetProcessIDs`, `StartTerminalWithProcess` and `ShowChosenTermChannelInfo`,
whenever its call of `SendToRPC` returns an error `e`, the wrapper completes
normally and returns that same `e`, with an empty result slice where it has one,
and its only collaborator call is that `SendToRPC`: `msg.Deserialize` is not
called. `ShowChosenTermChannelInfo` makes the call only with a chosen terminal id
other than 0; with 0 it calls nothing and returns nil. -/
theorem rpc_wrappers_propagate_transport_error {ι : Type} (dec : RpcDecoders ι)
    (client : RPCClient) (c : CliManager) (args : List String) :
    (∀ resp e, client.SendToRPC "ListTerminalIDs" [] = (resp, some e) →
      GetTerminalIDs dec client
        = .ok ⟨[], some e, [RpcEvent.send "ListTerminalIDs" []]⟩) ∧
    (∀ resp e, client.SendToRPC "ListTIDsWithProcessIDs" [] = (resp, some e) →
      GetTermIDsWithProcessIDs dec client
        = .ok ⟨[], some e, [RpcEvent.send "ListTIDsWithProcessIDs" []]⟩) ∧
    (∀ resp e, client.SendToRPC "ListProcessIDs" [] = (resp, some e) →
      GetProcessIDs dec client
        = .ok ⟨[], some e, [RpcEvent.send "ListProcessIDs" []]⟩) ∧
    (∀ resp e, client.SendToRPC "StartTerminalWithProcess" [] = (resp, some e) →
      CliManager.StartTerminalWithProcess dec client c args
        = .ok ⟨(), some e, [RpcEvent.send "StartTerminalWithProcess" []]⟩) ∧
    (∀ resp e, c.ChosenTerminalId ≠ 0 →
      client.SendToRPC "GetTermChannelInfo" [Itoa c.ChosenTerminalId] = (resp, some e) →
      CliManager.ShowChosenTermChannelInfo dec client c args
        = .ok ⟨(), some e, [RpcEvent.send "GetTermChannelInfo" [Itoa c.ChosenTerminalId]]⟩) ∧
    (c.ChosenTerminalId = 0 →
      CliManager.ShowChosenTermChannelInfo dec client c args = .ok ⟨(), none, []⟩) := by
  refine ⟨?_, ?_, ?_, ?_, ?_, ?_⟩
  · intro resp e h
    simp [GetTerminalIDs, h]
  · intro resp e h
    simp [GetTermIDsWithProcessIDs, h]
  · intro resp e h
    simp [GetProcessIDs, h]
  · intro resp e h
    simp [CliManager.StartTerminalWithProcess, h]
  · intro resp e hne h
    simp [CliManager.ShowChosenTermChannelInfo, hne, h]
  · intro h0
    simp [CliManager.ShowChosenTermChannelInfo, h0]

/-- Witness of `rpc_wrappers_propagate_transport_error`: a transport that answers
every call with the error "connection refused". -/
theorem rpc_wrappers_witness :
    GetTerminalIDs sampleDecoders failingClient
      = .ok ⟨[], some "connection refused", [RpcEvent.send "ListTerminalIDs" []]⟩ ∧
    CliManager.ShowChosenTermChannelInfo sampleDecoders failingClient sampleCli []
      = .ok ⟨(), some "connection refused", [RpcEvent.send "GetTermChannelInfo" ["3"]]⟩ :=
  ⟨(rpc_wrappers_propagate_transport_error sampleDecoders failingClient sampleCli []).1
      (ByteSlice.ofList []) "connection refused" rfl,
   (rpc_wrappers_propagate_transport_error sampleDecoders failingClient sampleCli []).2.2.2.2.1
      (ByteSlice.ofList []) "connection refused" (by decide) rfl⟩

/-! ## Character input through processMessage -/

theorem character_rune_bytes (t0 t1 c0 c1 c2 c3 : Byte) (rest spare : List Byte) :
    (ByteSlice.mk (t0 :: t1 :: c0 :: c1 :: c2 :: c3 :: rest) spare).slice 0 (0 + 4)
      = .ok ⟨[t0, t1, c0, c1], c2 :: c3 :: rest ++ spare⟩ := by
  have hc : (4 : Int) ≤
      ((ByteSlice.mk (t0 :: t1 :: c0 :: c1 :: c2 :: c3 :: rest) spare).cap : Int) := by
    simp only [ByteSlice.cap, List.length_cons]
    omega
  simp [ByteSlice.slice, hc]

/-- C18 at a failing input: for the character message with tag 4 and the code
point 'A' (65) in bytes 2..5, `processMessage` reads the rune from bytes 0..3, the
two tag bytes and the first two payload bytes, which is 4 + 65 * 65536 = 4259844,
no valid code point, and inserts U+FFFD (bytes EF BF BD) into the line "ab" at
column 1, where the code point of the payload gives "aAb". Whatever the tag
bytes are, the four bytes read at offset 0 begin with them. -/
theorem processMessage_character_reads_tag :
    processMessage sampleDecls sampleMsgCollab inBoundsMsgState
        (ByteSlice.ofList [4, 0, 65, 0, 0, 0]) = .ok
      { curRecByte := 0
        Focused := { TextBodies := [[[97, 239, 191, 189, 98]]], CursX := 2, CursY := 0 }
        others := () } ∧
    GetMessageTypeUInt16 (ByteSlice.ofList [4, 0, 65, 0, 0, 0])
      = .ok sampleDecls.TypeCharacter ∧
    readRuneLE [4, 0, 65, 0] = some 4259844 ∧
    readRuneLE [65, 0, 0, 0] = some 65 ∧
    ([97] ++ runeString 65 ++ [98] : GoString) = [97, 65, 98] ∧
    ∀ (t0 t1 c0 c1 c2 c3 : Byte) (rest spare : List Byte),
      (ByteSlice.mk (t0 :: t1 :: c0 :: c1 :: c2 :: c3 :: rest) spare).slice 0 (0 + 4)
        = .ok ⟨[t0, t1, c0, c1], c2 :: c3 :: rest ++ spare⟩ :=
  ⟨rfl, rfl, rfl, rfl, rfl, character_rune_bytes⟩

/-! ## Clear and Key in the terminal -/

/-- C19: for every terminal, terminal stack and message whose type tag, read after
the 4-byte prefix, is Clear, with `clear` wiping the text buffer as the spec says
of it, `Terminal.UnpackMessage` completes normally, the text buffer is wiped
afterwards and the vertical flow position `CurrFlowPos.Y` is 0, whatever it was
before; the terminal stack is unchanged. -/
theorem UnpackMessage_clear_wipes_and_resets {d : MsgDecls} {ρ γ : Type}
    (k : TermCollab d ρ γ) (wiped : ρ → Prop) (hclear : ClearWipes k wiped)
    (t : Terminal ρ) (g : γ) (message rest : ByteSlice)
    (hs : message.sliceFrom 4 = .ok rest) (ht : GetType rest = .ok d.TypeClear) :
    ∃ t2 : Terminal ρ,
      Terminal.UnpackMessage k (t, g) message = .ok (rest, t2, g) ∧
      wiped t2.others ∧
      t2.CurrFlowPos.Y = .fin 0 := by
  obtain ⟨t1, hc, hw⟩ := hclear t
  refine ⟨{ t1 with CurrFlowPos := { t1.CurrFlowPos with Y := .fin 0 } }, ?_, hw, rfl⟩
  simp [Terminal.UnpackMessage, hs, ht, hc]

/-- Witness of `UnpackMessage_clear_wipes_and_resets`: with a `clear` that empties
the buffer, a terminal showing "hi" at flow position 3 gets the Clear message
(tag 6); afterwards its buffer is empty and the flow position is 0. -/
theorem UnpackMessage_clear_witness :
    ClearWipes sampleTermCollab (fun buffer => buffer = []) ∧
    sampleTerminal.others = [104, 105] ∧ sampleTerminal.CurrFlowPos.Y = .fin 3 ∧
    ∃ t2 : Terminal (List Nat),
      Terminal.UnpackMessage sampleTermCollab (sampleTerminal, ())
        (ByteSlice.ofList [0, 0, 0, 0, 6, 0]) = .ok (ByteSlice.ofList [6, 0], t2, ()) ∧
      t2.others = [] ∧
      t2.CurrFlowPos.Y = .fin 0 :=
  ⟨fun t => ⟨{ t with others := [] }, rfl, rfl⟩, rfl, rfl,
   UnpackMessage_clear_wipes_and_resets sampleTermCollab (fun buffer => buffer = [])
     (fun t => ⟨{ t with others := [] }, rfl, rfl⟩) sampleTerminal ()
     (ByteSlice.ofList [0, 0, 0, 0, 6, 0]) (ByteSlice.ofList [6, 0]) rfl rfl⟩

/-- C20: for every terminal and every Key message, `onKey` is exactly one call of
`NewLine` on the terminal when the key is Enter, and for every other key code it
completes normally and leaves the terminal entirely unchanged. -/
theorem onKey_enter_or_nothing {d : MsgDecls} {ρ γ : Type} (k : TermCollab d ρ γ)
    (t : Terminal ρ) (m : MessageKey) :
    (m.Key = d.KeyEnter → Terminal.onKey k t m = k.NewLine t) ∧
    (m.Key ≠ d.KeyEnter → Terminal.onKey k t m = .ok t) := by
  constructor
  · intro h
    simp [Terminal.onKey, h]
  · intro h
    simp [Terminal.onKey, h]

/-- Witness of `onKey_enter_or_nothing`: Enter (13) appends a line feed to the
buffer of the sample terminal, the key 65 changes nothing. -/
theorem onKey_witness :
    Terminal.onKey sampleTermCollab sampleTerminal ⟨13, 0, 1, 0⟩
      = .ok { sampleTerminal with others := [104, 105, 10] } ∧
    Terminal.onKey sampleTermCollab sampleTerminal ⟨65, 0, 1, 0⟩ = .ok sampleTerminal :=
  ⟨(onKey_enter_or_nothing sampleTermCollab sampleTerminal ⟨13, 0, 1, 0⟩).1 rfl,
   (onKey_enter_or_nothing sampleTermCollab sampleTerminal ⟨65, 0, 1, 0⟩).2 (by decide)⟩

/-! ## Init of the channel bus -/

/-- C21: for every `DbusInstance`, whatever its state, `Init` completes normally
and leaves `PubsubChannels` an empty map (made, with no entry under any key) and
`Resources` an empty list; calling `Init` again on the result gives that same
state, so two calls leave what one call leaves. -/
theorem Init_empty_and_idempotent {χ : Type} (self : DbusInstance χ) :
    ∃ d1 : DbusInstance χ,
      self.Init = .ok d1 ∧
      d1.PubsubChannels = some GoMap.empty ∧
      (∀ k : ChannelId, mapIndex d1.PubsubChannels k = none) ∧
      d1.Resources = [] ∧
      d1.Init = .ok d1 :=
  ⟨{ PubsubChannels := some GoMap.empty, Resources := [] }, rfl, rfl, fun _ => rfl, rfl, rfl⟩

/-! ## Frame of removal and registration -/

theorem GoMap.find?_erase_self {κ ν : Type} [DecidableEq κ] (m : GoMap κ ν) (k : κ) :
    (m.erase k).find? k = none := by
  rw [GoMap.find?_eq_none_iff]
  intro e he
  simp only [GoMap.erase, List.mem_filter] at he
  simpa using he.2

theorem GoMap.find?_erase_ne {κ ν : Type} [DecidableEq κ] (m : GoMap κ ν) (k j : κ)
    (h : j ≠ k) : (m.erase k).find? j = m.find? j := by
  simp only [GoMap.find?, GoMap.erase, List.find?_filter]
  congr 2
  funext a
  by_cases hj : a.1 = j
  · simp [hj, h]
  · simp [hj]

theorem GoMap.find?_insert_ne {κ ν : Type} [DecidableEq κ] (m : GoMap κ ν) (k j : κ)
    (v : ν) (h : j ≠ k) : (m.insert k v).find? j = m.find? j := by
  have he := GoMap.find?_erase_ne m k j h
  have hk : ¬ k = j := fun hkj => h hkj.symm
  simp only [GoMap.find?] at he ⊢
  simp only [GoMap.insert, List.find?_cons, decide_eq_true_eq, hk, decide_False]
  exact he

theorem GetExtProcess_congr {τ : Type} (g g1 : ExtTaskList τ) (j : ExtTaskId)
    (h : mapIndex g1.TaskMap j = mapIndex g.TaskMap j) :
    GetExtProcess g1 j = GetExtProcess g j := by
  simp [GetExtProcess, h]

/-- C25, as stated, fails on a torn-down registry: with a nil task map
`AddExtTask` ends in a run-time panic, so it does not make
`ExtProcessIsRunning(ep.GetId())` true. -/
theorem AddExtTask_nil_map_registers_nothing :
    AddExtTask nilRegistry sampleTaskB = .error .panic ∧
    ExtProcessIsRunning nilRegistry (GetId sampleTaskB) = false ∧
    ¬ ∃ g1, AddExtTask nilRegistry sampleTaskB = .ok (GetId sampleTaskB, g1) ∧
        ExtProcessIsRunning g1 (GetId sampleTaskB) = true := by
  refine ⟨rfl, rfl, ?_⟩
  rintro ⟨g1, h, _⟩
  have h2 : AddExtTask nilRegistry sampleTaskB = .error .panic := rfl
  rw [h2] at h
  cases h

/-- C25 (amended): for every registry state and every registered id, after
`RemoveExtProcess(id)` `ExtProcessIsRunning(id)` is false and `GetExtProcess(id)`
returns a nil task and an error, while for every other id `j` both
`ExtProcessIsRunning(j)` and the result of `GetExtProcess(j)` are as before; and
for every initialised registry (its task map is not nil) `AddExtTask(ep)` completes
normally, makes `ExtProcessIsRunning(ep.GetId())` true and leaves the entry, the
running state and the `GetExtProcess` result of every other id as before. -/
theorem remove_and_add_frame {τ : Type} [ExtTaskInterface τ] (g : ExtTaskList τ) :
    (∀ id : ExtTaskId, ExtProcessIsRunning g id = true →
      ∃ g1 : ExtTaskList τ,
        RemoveExtProcess g id = .ok g1 ∧
        ExtProcessIsRunning g1 id = false ∧
        (∃ e, GetExtProcess g1 id = .ok (none, some e)) ∧
        ∀ j : ExtTaskId, j ≠ id →
          ExtProcessIsRunning g1 j = ExtProcessIsRunning g j ∧
          GetExtProcess g1 j = GetExtProcess g j) ∧
    (∀ ep : τ, g.TaskMap.isSome = true →
      ∃ g1 : ExtTaskList τ,
        AddExtTask g ep = .ok (GetId ep, g1) ∧
        ExtProcessIsRunning g1 (GetId ep) = true ∧
        ∀ j : ExtTaskId, j ≠ GetId ep →
          mapIndex g1.TaskMap j = mapIndex g.TaskMap j ∧
          ExtProcessIsRunning g1 j = ExtProcessIsRunning g j ∧
          GetExtProcess g1 j = GetExtProcess g j) := by
  obtain ⟨tm⟩ := g
  constructor
  · intro id hrun
    cases tm with
    | none => simp [ExtProcessIsRunning, mapIndex] at hrun
    | some m =>
      refine ⟨⟨some (m.erase id)⟩, rfl, ?_, ?_, ?_⟩
      · simp [ExtProcessIsRunning, mapIndex, GoMap.find?_erase_self]
      · have hg : GetExtProcess (⟨some (m.erase id)⟩ : ExtTaskList τ) id = .ok (none,
            some ("External process with id " ++ Itoa (goInt id) ++ " doesn't exist!")) := by
          simp [GetExtProcess, mapIndex, GoMap.find?_erase_self]
        exact ⟨_, hg⟩
      · intro j hj
        have hm : mapIndex (some (m.erase id)) j = mapIndex (some m) j :=
          GoMap.find?_erase_ne m id j hj
        exact ⟨by simp [ExtProcessIsRunning, hm], GetExtProcess_congr _ _ j hm⟩
  · intro ep hinit
    cases tm with
    | none => simp at hinit
    | some m =>
      cases hf : m.find? (GetId ep) with
      | some t0 =>
        have hrun : ExtProcessIsRunning (⟨some m⟩ : ExtTaskList τ) (GetId ep) = true := by
          simp [ExtProcessIsRunning, mapIndex, hf]
        refine ⟨⟨some m⟩, by simp [AddExtTask, hrun], hrun, ?_⟩
        intro j _
        exact ⟨rfl, rfl, rfl⟩
      | none =>
        have hrun : ExtProcessIsRunning (⟨some m⟩ : ExtTaskList τ) (GetId ep) = false := by
          simp [ExtProcessIsRunning, mapIndex, hf]
        refine ⟨⟨some (m.insert (GetId ep) ep)⟩, by simp [AddExtTask, hrun, mapAssign],
          by simp [ExtProcessIsRunning, mapIndex, GoMap.find?_insert_self], ?_⟩
        intro j hj
        have hm : mapIndex (some (m.insert (GetId ep) ep)) j = mapIndex (some m) j :=
          GoMap.find?_insert_ne m (GetId ep) j ep hj
        exact ⟨hm, by simp [ExtProcessIsRunning, hm], GetExtProcess_congr _ _ j hm⟩

/-- Witness of `remove_and_add_frame`: removing the registered id 7 from the
sample registry, and registering a task with id 7 in an empty initialised
registry. -/
theorem remove_and_add_frame_witness :
    (∃ g1 : ExtTaskList SampleTask,
      RemoveExtProcess sampleRegistry 7 = .ok g1 ∧ ExtProcessIsRunning g1 7 = false) ∧
    (∃ g1 : ExtTaskList SampleTask,
      AddExtTask (initExtTaskList nilRegistry) sampleTaskA = .ok (7, g1) ∧
      ExtProcessIsRunning g1 7 = true) :=
  ⟨((remove_and_add_frame sampleRegistry).1 7 rfl).imp (fun _ h => ⟨h.1, h.2.1⟩),
   ((remove_and_add_frame (initExtTaskList nilRegistry)).2 sampleTaskA rfl).imp
     (fun _ h => ⟨h.1, h.2.1⟩)⟩

/-! ## The setters of the default ids -/

theorem SetDefaultTerminalId_total (c : CliManager) (args : List String) :
    ∃ o : CliOutcome, c.SetDefaultTerminalId args = .ok o ∧ o.err = none := by
  cases args with
  | nil => exact ⟨_, rfl, rfl⟩
  | cons a0 rest =>
    by_cases hbad : (Atoi a0).2.isSome = true ∨ (Atoi a0).1 < 1
    · refine ⟨⟨c, none, ["\n\nArgument should be a number > 0, not " ++ a0 ++ "\n\n"]⟩, ?_, rfl⟩
      simp [CliManager.SetDefaultTerminalId, goIndex, hbad]
    · refine ⟨⟨{ c with ChosenTerminalId := (Atoi a0).1 }, none, []⟩, ?_, rfl⟩
      simp [CliManager.SetDefaultTerminalId, goIndex, hbad]

theorem SetDefaultTerminalId_updates_iff_valid (c : CliManager) (a0 : String)
    (rest : List String) :
    ((Atoi a0).2 = none ∧ 1 ≤ (Atoi a0).1 →
      c.SetDefaultTerminalId (a0 :: rest)
        = .ok ⟨{ c with ChosenTerminalId := (Atoi a0).1 }, none, []⟩) ∧
    (¬ ((Atoi a0).2 = none ∧ 1 ≤ (Atoi a0).1) →
      c.SetDefaultTerminalId (a0 :: rest)
        = .ok ⟨c, none, ["\n\nArgument should be a number > 0, not " ++ a0 ++ "\n\n"]⟩) := by
  constructor
  · intro hv
    have hbad : ¬ ((Atoi a0).2.isSome = true ∨ (Atoi a0).1 < 1) := by
      simp [hv.1, hv.2]
    simp [CliManager.SetDefaultTerminalId, goIndex, hbad]
  · intro hv
    have hbad : (Atoi a0).2.isSome = true ∨ (Atoi a0).1 < 1 := by
      by_cases he : (Atoi a0).2 = none
      · right
        have h1 : ¬ 1 ≤ (Atoi a0).1 := fun h => hv ⟨he, h⟩
        exact not_le.mp h1
      · left
        exact Option.isSome_iff_ne_none.mpr he
    simp [CliManager.SetDefaultTerminalId, goIndex, hbad]

/-- C22 at a failing input: `SetDefaultProcessId` called with the empty argument
list formats `args[0]` inside its `len(args) == 0` branch and ends in a run-time
panic (index out of range), where `SetDefaultTerminalId` on the empty list prints
its message and returns a nil error. `SetDefaultTerminalId` completes with a nil
error on every argument list. -/
theorem SetDefaultProcessId_empty_list_panics :
    chosenCli.SetDefaultProcessId [] = .error .panic ∧
    chosenCli.SetDefaultTerminalId []
      = .ok ⟨chosenCli, none, ["\n\nPass the terminal Id as arguement please."]⟩ ∧
    ∀ (c : CliManager) (args : List String),
      ∃ o : CliOutcome, c.SetDefaultTerminalId args = .ok o ∧ o.err = none :=
  ⟨rfl, rfl, SetDefaultTerminalId_total⟩

/-- C27 at a failing input: with process 5 chosen, `SetDefaultProcessId` on the
argument "abc", which is no number, prints its message and then still assigns:
`ChosenProcessId` becomes 0, the value `strconv.Atoi` returns beside its error.
`SetDefaultTerminalId` on the same argument leaves the manager unchanged, and on
every first argument it updates `ChosenTerminalId` exactly when `strconv.Atoi`
accepts the argument with a value of at least 1. -/
theorem SetDefaultProcessId_bad_argument_overwrites :
    chosenCli.SetDefaultProcessId ["abc"]
      = .ok ⟨{ chosenCli with ChosenProcessId := 0 }, none,
          ["\n\nArgument should be a number > 0, not abc\n\n"]⟩ ∧
    chosenCli.ChosenProcessId = 5 ∧
    Atoi "abc" = (0, some "strconv.Atoi: parsing abc: invalid syntax") ∧
    chosenCli.SetDefaultTerminalId ["abc"]
      = .ok ⟨chosenCli, none, ["\n\nArgument should be a number > 0, not abc\n\n"]⟩ ∧
    chosenCli.SetDefaultTerminalId ["8"]
      = .ok ⟨{ chosenCli with ChosenTerminalId := 8 }, none, []⟩ := by
  exact ⟨rfl, rfl, by decide, rfl, rfl⟩

/-! ## The latest blocks of the chain -/

theorem chainUpTo_Head (h : Nat) (hh : h < 2 ^ 64) :
    (chainUpTo h).Head = some ⟨h, 100 + h⟩ := by
  have h0 : ¬ ((h : Int) < 0) := by omega
  have hm : h % 2 ^ 64 = h := Nat.mod_eq_of_lt hh
  simp only [Blockchain.Head, Blockchain.GetBlockInDepth, chainUpTo, h0, if_false,
    Int.toNat_ofNat, hm, le_refl, if_true]

theorem GetLastBlocks_beyond_length (h num fuel : Nat) (hnum : num < 2 ^ 64)
    (hbig : h + 1 < num) :
    (chainUpTo h).GetLastBlocks fuel num = .ok (some []) := by
  have hh : h < 2 ^ 64 := by omega
  have hn0 : num ≠ 0 := by omega
  have hstart : (h + 2 ^ 64 - num % 2 ^ 64 + 1) % 2 ^ 64 = h + 2 ^ 64 - num + 1 := by
    rw [Nat.mod_eq_of_lt hnum]
    exact Nat.mod_eq_of_lt (by omega)
  have hgt : h + 2 ^ 64 - num + 1 > h := by omega
  simp only [Blockchain.GetLastBlocks, hn0, if_false, chainUpTo_Head h hh, Block.Seq, hstart,
    Nat.not_lt_zero, Blockchain.GetBlocks, hgt, if_true]

theorem getBlocksLoop_chain (h : Nat) (hh : h + 1 < 2 ^ 64) :
    ∀ (n fuel i : Nat) (acc : List Block), i + n = h + 1 → n < fuel →
      (chainUpTo h).getBlocksLoop fuel i h acc
        = some (acc ++ (List.range n).map (fun j => (⟨i + j, 100 + (i + j)⟩ : Block))) := by
  intro n
  induction n with
  | zero =>
    intro fuel i acc hi hf
    obtain ⟨f, rfl⟩ : ∃ f, fuel = f + 1 := ⟨fuel - 1, by omega⟩
    have hle : ¬ i ≤ h := by omega
    simp [Blockchain.getBlocksLoop, hle]
  | succ n ih =>
    intro fuel i acc hi hf
    obtain ⟨f, rfl⟩ : ∃ f, fuel = f + 1 := ⟨fuel - 1, by omega⟩
    have hle : i ≤ h := by omega
    have hmod : (i + 1) % 2 ^ 64 = i + 1 := Nat.mod_eq_of_lt (by omega)
    have hb : (chainUpTo h).blockInDepth i = some ⟨i, 100 + i⟩ := by
      simp [chainUpTo, hle]
    have hrec := ih f (i + 1) (acc ++ [⟨i, 100 + i⟩]) (by omega) (by omega)
    simp only [Blockchain.getBlocksLoop, hle, if_true, hb, hmod, hrec]
    rw [List.range_succ_eq_map]
    simp [List.map_map, Function.comp, Nat.add_assoc, Nat.add_comm 1]

theorem GetLastBlocks_within_length (h num fuel : Nat) (hh : h + 1 < 2 ^ 64)
    (h1 : 1 ≤ num) (h2 : num ≤ h + 1) (hf : num < fuel) :
    (chainUpTo h).GetLastBlocks fuel num = .ok (some (specBlocks (h + 1 - num) h)) := by
  have hn0 : num ≠ 0 := by omega
  have hnum : num < 2 ^ 64 := by omega
  have hstart : (h + 2 ^ 64 - num % 2 ^ 64 + 1) % 2 ^ 64 = h + 1 - num := by
    rw [Nat.mod_eq_of_lt hnum]
    have e : h + 2 ^ 64 - num + 1 = (h + 1 - num) + 2 ^ 64 := by omega
    rw [e, Nat.add_mod_right]
    exact Nat.mod_eq_of_lt (by omega)
  have hle : ¬ h + 1 - num > h := by omega
  have hloop := getBlocksLoop_chain h hh num fuel (h + 1 - num) [] (by omega) hf
  have hlen : h + 1 - (h + 1 - num) = num := by omega
  simp only [Blockchain.GetLastBlocks, hn0, if_false, chainUpTo_Head h (by omega), Block.Seq,
    hstart, Nat.not_lt_zero, Blockchain.GetBlocks, hle, hloop, specBlocks, hlen, List.nil_append]

/-- C24 at a failing input: on the chain of the blocks 0 and 1 (head sequence 1),
`GetLastBlocks(3)` computes `start = 1 - 3 + 1` in `uint64`, which wraps to
2^64 - 1; the test `start < 0` never holds, `start > end` does, and no block is
returned, where the latest 3 blocks of a chain of length 2 are its blocks 0
and 1. For every num up to the chain length the blocks h-num+1 .. h are
returned, and for every larger num none. -/
theorem GetLastBlocks_more_than_length_returns_none :
    (chainUpTo 1).GetLastBlocks 10 3 = .ok (some []) ∧
    specBlocks 0 1 = [⟨0, 100⟩, ⟨1, 101⟩] ∧
    (chainUpTo 1).GetLastBlocks 10 2 = .ok (some [⟨0, 100⟩, ⟨1, 101⟩]) ∧
    (∀ h num fuel : Nat, num < 2 ^ 64 → h + 1 < num →
      (chainUpTo h).GetLastBlocks fuel num = .ok (some [])) ∧
    (∀ h num fuel : Nat, h + 1 < 2 ^ 64 → 1 ≤ num → num ≤ h + 1 → num < fuel →
      (chainUpTo h).GetLastBlocks fuel num = .ok (some (specBlocks (h + 1 - num) h))) :=
  ⟨GetLastBlocks_beyond_length 1 3 10 (by norm_num) (by norm_num), by decide,
   by
    have h := GetLastBlocks_within_length 1 2 10 (by norm_num) (by norm_num) (by norm_num)
      (by norm_num)
    simpa [specBlocks, List.range_succ] using h,
   GetLastBlocks_beyond_length, GetLastBlocks_within_length⟩

end Viscript
